import Mathlib

/-!
# Reference-Counter: a shallow embedding of `rc.c`

The C program keeps one process-wide `struct reference_graph *graph`.  Its state is
modelled by `Mem`: the global pointer (`none` is `NULL`) together with the heap of
`struct strong_ref` objects, addressed by natural numbers (`0` is `NULL`).

Conventions of the model.

* `size_t` is 64 bits wide (the sentinel `0xFFFFFFFFFFFFFFFF` of the source is all bits
  set); every arithmetic step on a `size_t` is taken modulo `2^64`.
* A `struct graph_entry` is 16 bytes: `entry_id` in bytes 0..7 and `ref` in bytes 8..15,
  least significant byte first.  `delete_entry` moves *bytes*, as the source does.
* `allocations` lists the slots of the block that have been written so far; the block
  has room for `size` slots.  Slots at positions `>= n_allocations` keep their old
  content, as they do in C.  A slot that was never written holds no valid pointer: where
  its `ref` is only compared it reads as `NULL`, where it is dereferenced the behaviour
  is undefined.
* `safe_malloc` / `safe_realloc` succeed (on failure the program exits).  The addresses
  returned by the two `safe_malloc` calls of `allocate` are arguments of the model
  (`sr_addr`, `ptr_addr`), so that every behaviour of the allocator is covered.
* A dereference of `NULL` or of a freed `struct strong_ref`, an access outside the
  block and a division by zero are undefined behaviour: `Fault.undefined`.
* Recursion of `decrament_count` is driven by a fuel argument; `Fault.fuel` reports that
  the budget was too small.
-/

set_option linter.unusedVariables false

namespace RC

/-- Number of values of a `size_t`: `2^64`. -/
def SIZE_MOD : Nat := 18446744073709551616

/-- The entry id of the invalid weak reference, `0xFFFFFFFFFFFFFFFF`. -/
def INVALID_ID : Nat := 18446744073709551615

/-- Modelled from the spec: the constants `RC_INIT_SZ` (initial capacity) and
`RC_GROWTH_RT` (growth ratio) are defined in `rc.h`, which is not among the sources;
they are parameters of the model. -/
structure Params where
  RC_INIT_SZ : Nat
  RC_GROWTH_RT : Nat
deriving DecidableEq, Repr

/-- Modelled from the spec: `struct strong_ref` is declared in `rc.h`, which is not
among the sources.  The fields are the ones `rc.c` uses: `ptr`, `entry.count`, and
`entry.dep_list` with `entry.n_deps` (the length of `dep_list`). -/
structure StrongRef where
  ptr : Nat
  count : Nat
  dep_list : List Nat
deriving DecidableEq, Repr

/-- Modelled from the spec: `struct weak_ref` is declared in `rc.h`, which is not among
the sources; `rc.c` uses its single field `entry_id`. -/
structure WeakRef where
  entry_id : Nat
deriving DecidableEq, Repr

/-- The `struct graph_entry` of `rc.c`: an id and the address of a `struct strong_ref`. -/
structure GraphEntry where
  entry_id : Nat
  ref : Nat
deriving DecidableEq, Repr

/-- The `struct reference_graph` of `rc.c`. -/
structure ReferenceGraph where
  allocations : List GraphEntry
  n_allocations : Nat
  size : Nat
  next_entry_id : Nat
deriving DecidableEq, Repr

/-- Program state: the global `graph` and the live `struct strong_ref` objects. -/
structure Mem where
  graph : Option ReferenceGraph
  heap : Nat → Option StrongRef

/-- Abnormal ends of a call. -/
inductive Fault where
  | undefined
  | fuel
deriving DecidableEq, Repr

/-- State before `main`: `graph == NULL`, nothing allocated. -/
def Mem.start : Mem := { graph := none, heap := fun _ => none }

/-- Dereference of a `struct strong_ref *`. -/
def load (s : Mem) (a : Nat) : Except Fault StrongRef :=
  if a = 0 then .error .undefined
  else match s.heap a with
    | some r => .ok r
    | none => .error .undefined

/-- Write through a `struct strong_ref *`. -/
def store (s : Mem) (a : Nat) (r : StrongRef) : Mem :=
  { s with heap := fun b => if b = a then some r else s.heap b }

/-- Release of a `struct strong_ref` (with its block and dependency list). -/
def release (s : Mem) (a : Nat) : Mem :=
  { s with heap := fun b => if b = a then none else s.heap b }

/-- The entries in positions `0 .. n_allocations - 1`. -/
def ReferenceGraph.entries (g : ReferenceGraph) : List GraphEntry :=
  g.allocations.take g.n_allocations

/-- Read of `graph->allocations[i]` where the program goes on to trust the slot (its `ref`
is dereferenced, or it is the slot a pointer was taken to): undefined when the slot was
never written. -/
def slot (s : Mem) (i : Nat) : Except Fault GraphEntry :=
  match s.graph with
  | none => .error .undefined
  | some g =>
    match g.allocations[i]? with
    | some e => .ok e
    | none => .error .undefined

/-- Position of the first element satisfying `p`, counted from `i`. -/
def first_index (p : GraphEntry → Bool) : List GraphEntry → Nat → Option Nat
  | [], _ => none
  | e :: es, i => if p e then some i else first_index p es (i + 1)

/-- The record `init_reference_graph` builds: room for `RC_INIT_SZ` slots, none in use. -/
def empty_graph (P : Params) : ReferenceGraph :=
  { allocations := [], n_allocations := 0, size := P.RC_INIT_SZ, next_entry_id := 0 }

/-- Source `init_reference_graph` (rc.c 39-46): a new, empty graph replaces the global one,
whatever the global one held. -/
def init_reference_graph (P : Params) (s : Mem) : Mem :=
  { s with graph := some (empty_graph P) }

/-- Source `get_graph_entry_from_ref` (rc.c 49-60): the position of the first entry whose
`ref` is the given pointer; `none` stands for the `NULL` result. -/
def get_graph_entry_from_ref (s : Mem) (ref : Nat) : Option Nat :=
  match s.graph with
  | none => none
  | some g =>
    if ref = 0 then none
    else first_index (fun e => decide (e.ref = ref)) g.entries 0

/-- Source `get_graph_entry_by_id` (rc.c 62-73): the position of the first entry with the
given id; `none` stands for the `NULL` result. -/
def get_graph_entry_by_id (s : Mem) (entry_id : Nat) : Option Nat :=
  match s.graph with
  | none => none
  | some g => first_index (fun e => decide (e.entry_id = entry_id)) g.entries 0

/-- Source `allocate` (rc.c 75-92): builds the `struct strong_ref` at `sr_addr` with block
`ptr_addr`; with a `dep` found in the store, the count is read from `dep` and the
dependency list holds the id of the entry of `dep`. -/
def allocate (s : Mem) (sr_addr ptr_addr : Nat) (ref_size : Nat) (dep : Nat) :
    Except Fault Mem :=
  let s1 := store s sr_addr { ptr := ptr_addr, count := 1, dep_list := [] }
  match get_graph_entry_from_ref s1 dep with
  | some i =>
    if dep = 0 then .ok s1
    else
      match slot s1 i with
      | .error f => .error f
      | .ok e =>
        match load s1 dep with
        | .error f => .error f
        | .ok d =>
          .ok (store s1 sr_addr { ptr := ptr_addr, count := d.count, dep_list := [e.entry_id] })
  | none => .ok s1

/-- Write of slot `i` of the block (bounds are checked by the caller). -/
def write_slot (l : List GraphEntry) (i : Nat) (e : GraphEntry) : List GraphEntry :=
  if i < l.length then l.set i e
  else l ++ List.replicate (i - l.length) { entry_id := 0, ref := 0 } ++ [e]

/-- Source `new_graph_entry` (rc.c 94-111): returns the new state and the position of the
new entry.  The slot is claimed and its `entry_id` written before `allocate` runs, as in
the source. -/
def new_graph_entry (P : Params) (s : Mem) (sr_addr ptr_addr : Nat) (n : Nat) (dep : Nat) :
    Except Fault (Mem × Nat) :=
  let s0 := if s.graph.isNone then init_reference_graph P s else s
  match s0.graph with
  | none => .error .undefined
  | some g =>
    let g1 : ReferenceGraph :=
      if g.size = g.n_allocations then { g with size := g.size * P.RC_GROWTH_RT % SIZE_MOD }
      else g
    let i := g1.n_allocations
    if g1.size ≤ i then .error .undefined
    else
      let old := match g1.allocations[i]? with
        | some e => e.ref
        | none => 0
      let g2 : ReferenceGraph :=
        { g1 with
          allocations := write_slot g1.allocations i { entry_id := g1.next_entry_id, ref := old }
          n_allocations := (i + 1) % SIZE_MOD
          next_entry_id := (g1.next_entry_id + 1) % SIZE_MOD }
      match allocate { s0 with graph := some g2 } sr_addr ptr_addr n dep with
      | .error f => .error f
      | .ok s3 =>
        let g3 : ReferenceGraph :=
          { g2 with
            allocations :=
              write_slot g2.allocations i { entry_id := g1.next_entry_id, ref := sr_addr } }
        .ok ({ s3 with graph := some g3 }, i)

/-- The graph record `new_graph_entry` leaves when it works on `g` and stores `ref` in
the new slot (used to state lemmas; `new_graph_entry` itself does not use it). -/
def grown (P : Params) (g : ReferenceGraph) (ref : Nat) : ReferenceGraph :=
  { allocations :=
      write_slot g.allocations g.n_allocations { entry_id := g.next_entry_id, ref := ref }
    n_allocations := g.n_allocations + 1
    size := if g.size = g.n_allocations then g.size * P.RC_GROWTH_RT % SIZE_MOD else g.size
    next_entry_id := (g.next_entry_id + 1) % SIZE_MOD }

/-- The `ref` bytes found in slot `n_allocations` before `new_graph_entry` fills it. -/
def stale_ref (g : ReferenceGraph) : Nat :=
  match g.allocations[g.n_allocations]? with
  | some e => e.ref
  | none => 0

/-- The `w` bytes of `v`, least significant first. -/
def le_bytes : Nat → Nat → List Nat
  | 0, _ => []
  | w + 1, v => v % 256 :: le_bytes w (v / 256)

/-- Value of a little-endian byte string. -/
def le_value : List Nat → Nat
  | [] => 0
  | b :: bs => b + 256 * le_value bs

/-- Bytes of the block holding the given slots. -/
def block_bytes : List GraphEntry → List Nat
  | [] => []
  | e :: es => le_bytes 8 e.entry_id ++ le_bytes 8 e.ref ++ block_bytes es

/-- Slots held by a block of `16 * k` bytes. -/
def block_slots : Nat → List Nat → List GraphEntry
  | 0, _ => []
  | k + 1, bs =>
    { entry_id := le_value (bs.take 8), ref := le_value ((bs.drop 8).take 8) }
      :: block_slots k (bs.drop 16)

/-- Library `memmove(mem + dst, mem + src, k)` inside one block of bytes. -/
def memmove (mem : List Nat) (dst src k : Nat) : Except Fault (List Nat) :=
  if src + k ≤ mem.length ∧ dst + k ≤ mem.length then
    .ok (mem.take dst ++ (mem.drop src).take k ++ mem.drop (dst + k))
  else .error .undefined

/-- Source `delete_entry` (rc.c 115-123): frees the strong reference found in slot `index`,
moves `n_allocations - index - 1` bytes from slot `index + 1` to slot `index`, and
decrements `n_allocations`.  With `index >= n_allocations` the length wraps around. -/
def delete_entry (s : Mem) (index : Nat) : Except Fault Mem :=
  match s.graph with
  | none => .error .undefined
  | some g =>
    if g.size ≤ index then .error .undefined
    else
      match slot s index with
      | .error f => .error f
      | .ok e =>
        match load s e.ref with
        | .error f => .error f
        | .ok _ =>
          let s1 := release s e.ref
          if g.n_allocations ≤ index then .error .undefined
          else
            match memmove (block_bytes g.allocations) (16 * index) (16 * (index + 1))
                (g.n_allocations - index - 1) with
            | .error f => .error f
            | .ok bytes =>
              let g1 : ReferenceGraph :=
                { g with
                  allocations := block_slots g.allocations.length bytes
                  n_allocations := g.n_allocations - 1 }
              .ok { s1 with graph := some g1 }

mutual
/-- Source `decrament_count` (rc.c 126-144); `g_entry` is the position of the slot pointed
to (`none` is `NULL`). -/
def decrament_count : Nat → Mem → Option Nat → Except Fault Mem
  | 0, _, _ => .error .fuel
  | fuel + 1, s, g_entry =>
    match g_entry with
    | none => .ok s
    | some p =>
      match slot s p with
      | .error f => .error f
      | .ok e0 =>
        if e0.ref = 0 then .ok s
        else
          match decrament_outer fuel s p 0 with
          | .error f => .error f
          | .ok s1 =>
            match slot s1 p with
            | .error f => .error f
            | .ok e =>
              match load s1 e.ref with
              | .error f => .error f
              | .ok r =>
                let c := (r.count + SIZE_MOD - 1) % SIZE_MOD
                let s2 := store s1 e.ref { r with count := c }
                if c = 0 then delete_entry s2 e.entry_id else .ok s2
termination_by structural fuel => fuel
/-- The outer loop of `decrament_count`, at its test `i < graph->n_allocations`. -/
def decrament_outer : Nat → Mem → Nat → Nat → Except Fault Mem
  | 0, _, _, _ => .error .fuel
  | fuel + 1, s, p, i =>
    match s.graph with
    | none => .error .undefined
    | some g =>
      if i < g.n_allocations then decrament_inner fuel s p i 0
      else .ok s
termination_by structural fuel => fuel
/-- The inner loop of `decrament_count`, at its test
`j < graph->allocations[i].ref->entry.n_deps`. -/
def decrament_inner : Nat → Mem → Nat → Nat → Nat → Except Fault Mem
  | 0, _, _, _, _ => .error .fuel
  | fuel + 1, s, p, i, j =>
    match slot s i with
    | .error f => .error f
    | .ok ei =>
      match load s ei.ref with
      | .error f => .error f
      | .ok ri =>
        match ri.dep_list[j]? with
        | none => decrament_outer fuel s p (i + 1)
        | some d =>
          match slot s p with
          | .error f => .error f
          | .ok e =>
            if d = e.entry_id then
              match decrament_count fuel s (some i) with
              | .error f => .error f
              | .ok s1 => decrament_inner fuel s1 p i (j + 1)
            else decrament_inner fuel s p i (j + 1)
termination_by structural fuel => fuel
end

/-- Loop of `find_reference` (rc.c 157-161): the `ref` of the first entry whose block is
`ptr`, `0` for `NULL`; every entry visited is dereferenced. -/
def find_reference_loop (s : Mem) (ptr : Nat) : List GraphEntry → Except Fault Nat
  | [] => .ok 0
  | e :: es =>
    match load s e.ref with
    | .error f => .error f
    | .ok r => if r.ptr = ptr then .ok e.ref else find_reference_loop s ptr es

/-- Source `find_reference` (rc.c 155-164); `graph` is read without a test for `NULL`. -/
def find_reference (s : Mem) (ptr : Nat) : Except Fault Nat :=
  match s.graph with
  | none => .error .undefined
  | some g => find_reference_loop s ptr g.entries

/-- Source `rc_alloc` (rc.c 187-199); the result is the state and the returned
`struct strong_ref *`. -/
def rc_alloc (P : Params) (s : Mem) (sr_addr ptr_addr : Nat) (ptr n dep : Nat) :
    Except Fault (Mem × Nat) :=
  if ptr = 0 then
    match new_graph_entry P s sr_addr ptr_addr n dep with
    | .error f => .error f
    | .ok (s1, i) =>
      match slot s1 i with
      | .error f => .error f
      | .ok e => .ok (s1, e.ref)
  else
    match find_reference s ptr with
    | .error f => .error f
    | .ok sr =>
      if sr ≠ 0 then
        match load s sr with
        | .error f => .error f
        | .ok r => .ok (store s sr { r with count := (r.count + 1) % SIZE_MOD }, sr)
      else .ok (s, 0)

/-- Source `rc_downgrade` (rc.c 217-241); the result is the state and the returned weak
reference. -/
def rc_downgrade (P : Params) (fuel : Nat) (s : Mem) (ref : Nat) :
    Except Fault (Mem × WeakRef) :=
  if s.graph.isNone ∨ ref = 0 then .ok (s, { entry_id := INVALID_ID })
  else
    match get_graph_entry_from_ref s ref with
    | none => .ok (s, { entry_id := INVALID_ID })
    | some p =>
      match decrament_count fuel s (some p) with
      | .error f => .error f
      | .ok s1 =>
        match s1.graph with
        | none => .error .undefined
        | some g =>
          if P.RC_GROWTH_RT = 0 then .error .undefined
          else
            let g1 : ReferenceGraph :=
              if g.n_allocations < g.size / P.RC_GROWTH_RT then
                { g with
                  allocations := g.allocations.take (g.size / P.RC_GROWTH_RT)
                  size := g.size / P.RC_GROWTH_RT }
              else g
            let s2 : Mem := { s1 with graph := some g1 }
            match get_graph_entry_from_ref s2 ref with
            | none => .ok (s2, { entry_id := INVALID_ID })
            | some q =>
              match slot s2 q with
              | .error f => .error f
              | .ok e => .ok (s2, { entry_id := e.entry_id })

/-- Source `rc_upgrade` (rc.c 250-263); the result is the state and the returned
`struct strong_ref *`.
The test `ref.entry_id < 0` of the source is never true for a `size_t`. -/
def rc_upgrade (s : Mem) (ref : WeakRef) : Except Fault (Mem × Nat) :=
  match s.graph with
  | none => .ok (s, 0)
  | some g =>
    if g.next_entry_id ≤ ref.entry_id then .ok (s, 0)
    else
      match get_graph_entry_by_id s ref.entry_id with
      | none => .ok (s, 0)
      | some i =>
        match slot s i with
        | .error f => .error f
        | .ok e =>
          match load s e.ref with
          | .error f => .error f
          | .ok r => .ok (store s e.ref { r with count := (r.count + 1) % SIZE_MOD }, e.ref)

/-- Loop of `rc_cleanup` (rc.c 275-279) that frees every entry. -/
def cleanup_loop (s : Mem) : List GraphEntry → Except Fault Mem
  | [] => .ok s
  | e :: es =>
    match load s e.ref with
    | .error f => .error f
    | .ok _ => cleanup_loop (release s e.ref) es

/-- Source `rc_cleanup` (rc.c 269-285). -/
def rc_cleanup (s : Mem) : Except Fault Mem :=
  match s.graph with
  | none => .ok s
  | some g =>
    match cleanup_loop s g.entries with
    | .error f => .error f
    | .ok s1 => .ok { s1 with graph := none }

/-- One call of the public interface, with the addresses the allocator hands out. -/
inductive Call where
  | alloc (sr_addr ptr_addr : Nat) (ptr n dep : Nat)
  | downgrade (ref : Nat)
  | upgrade (ref : WeakRef)
deriving DecidableEq, Repr

/-- Effect of one call on the state (the returned value is dropped). -/
def step (P : Params) (fuel : Nat) (s : Mem) : Call → Except Fault Mem
  | .alloc sr_addr ptr_addr ptr n dep =>
    match rc_alloc P s sr_addr ptr_addr ptr n dep with
    | .error f => .error f
    | .ok (s1, _) => .ok s1
  | .downgrade ref =>
    match rc_downgrade P fuel s ref with
    | .error f => .error f
    | .ok (s1, _) => .ok s1
  | .upgrade ref =>
    match rc_upgrade s ref with
    | .error f => .error f
    | .ok (s1, _) => .ok s1

/-- Effect of a sequence of calls. -/
def run (P : Params) (fuel : Nat) : Mem → List Call → Except Fault Mem
  | s, [] => .ok s
  | s, c :: cs =>
    match step P fuel s c with
    | .error f => .error f
    | .ok s1 => run P fuel s1 cs

/-- What can be seen of a state: the graph record and, for each entry in positions
`0 .. n_allocations - 1`, the object its `ref` points to (`none` when freed). -/
def view (s : Mem) : Option (ReferenceGraph × List (Option StrongRef)) :=
  match s.graph with
  | none => none
  | some g => some (g, g.entries.map (fun e => s.heap e.ref))

deriving instance DecidableEq for Except

/-- A call sequence run from a freshly initialised graph; the result is the view of the
final state. -/
def view_after (P : Params) (fuel : Nat) (calls : List Call) :
    Except Fault (Option (ReferenceGraph × List (Option StrongRef))) :=
  match run P fuel (init_reference_graph P Mem.start) calls with
  | .error f => .error f
  | .ok s => .ok (view s)

/-- A call sequence run from a freshly initialised graph, followed by `rc_upgrade(w)`; the
result is the view of the state before the upgrade and the pointer the upgrade returned. -/
def upgrade_after (P : Params) (fuel : Nat) (calls : List Call) (w : WeakRef) :
    Except Fault (Option (ReferenceGraph × List (Option StrongRef)) × Nat) :=
  match run P fuel (init_reference_graph P Mem.start) calls with
  | .error f => .error f
  | .ok s =>
    match rc_upgrade s w with
    | .error f => .error f
    | .ok (_, r) => .ok (view s, r)

/-- The composition `rc_upgrade(rc_downgrade(ref))`; the result is the weak reference the
downgrade returned, the object `ref` points to after the downgrade, and the pointer the
upgrade returned. -/
def round_trip (P : Params) (fuel : Nat) (s : Mem) (ref : Nat) :
    Except Fault (WeakRef × Option StrongRef × Nat) :=
  match rc_downgrade P fuel s ref with
  | .error f => .error f
  | .ok (s1, w) =>
    match rc_upgrade s1 w with
    | .error f => .error f
    | .ok (_, r) => .ok (w, s1.heap ref, r)

/-- A call sequence run from a freshly initialised graph, followed by the round trip. -/
def round_trip_after (P : Params) (fuel : Nat) (calls : List Call) (ref : Nat) :
    Except Fault (WeakRef × Option StrongRef × Nat) :=
  match run P fuel (init_reference_graph P Mem.start) calls with
  | .error f => .error f
  | .ok s => round_trip P fuel s ref

/-- A call sequence run from a freshly initialised graph; the result lists the objects
found at the given addresses in the final state (`none` when freed or never allocated). -/
def objects_after (P : Params) (fuel : Nat) (calls : List Call) (addrs : List Nat) :
    Except Fault (List (Option StrongRef)) :=
  match run P fuel (init_reference_graph P Mem.start) calls with
  | .error f => .error f
  | .ok s => .ok (addrs.map s.heap)

/-- A call sequence run from a freshly initialised graph, followed by `rc_downgrade(ref)`;
the result is the weak reference returned and the view of the final state. -/
def downgrade_after (P : Params) (fuel : Nat) (calls : List Call) (ref : Nat) :
    Except Fault (WeakRef × Option (ReferenceGraph × List (Option StrongRef))) :=
  match run P fuel (init_reference_graph P Mem.start) calls with
  | .error f => .error f
  | .ok s =>
    match rc_downgrade P fuel s ref with
    | .error f => .error f
    | .ok (s1, w) => .ok (w, view s1)

/-- View of the state that `delete_entry(index)` leaves. -/
def view_delete (s : Mem) (index : Nat) :
    Except Fault (Option (ReferenceGraph × List (Option StrongRef))) :=
  match delete_entry s index with
  | .error f => .error f
  | .ok s1 => .ok (view s1)

/-- The state `s1` has a graph with the capacity and the id counter of `g` and at most as
many entries as `g`. -/
def same_capacity (g : ReferenceGraph) (s1 : Mem) : Prop :=
  ∃ g1, s1.graph = some g1 ∧ g1.size = g.size ∧ g1.next_entry_id = g.next_entry_id ∧
    g1.n_allocations ≤ g.n_allocations

/-- The capacity `new_graph_entry` works with after its growth step (rc.c 100-103). -/
def size_after_growth (P : Params) (g : ReferenceGraph) : Nat :=
  if g.size = g.n_allocations then g.size * P.RC_GROWTH_RT % SIZE_MOD else g.size

/-- The capacity `rc_downgrade` leaves after its shrink step (rc.c 230-233), for a graph
that has `n` entries after the cascade. -/
def size_after_shrink (P : Params) (size n : Nat) : Nat :=
  if n < size / P.RC_GROWTH_RT then size / P.RC_GROWTH_RT else size

/-- The graph record `rc_downgrade` leaves after its shrink step when the cascade left `gc`
(used to state lemmas; `rc_downgrade` itself does not use it). -/
def shrunk (P : Params) (gc : ReferenceGraph) : ReferenceGraph :=
  if gc.n_allocations < gc.size / P.RC_GROWTH_RT then
    { gc with
      allocations := gc.allocations.take (gc.size / P.RC_GROWTH_RT)
      size := gc.size / P.RC_GROWTH_RT }
  else gc

/-- A call sequence run from a freshly initialised graph, followed by
`rc_alloc(ptr, n, dep)`; the result is the pointer returned and the view of the final
state. -/
def alloc_after (P : Params) (fuel : Nat) (calls : List Call)
    (sr_addr ptr_addr ptr n dep : Nat) :
    Except Fault (Nat × Option (ReferenceGraph × List (Option StrongRef))) :=
  match run P fuel (init_reference_graph P Mem.start) calls with
  | .error f => .error f
  | .ok s =>
    match rc_alloc P s sr_addr ptr_addr ptr n dep with
    | .error f => .error f
    | .ok (s1, r) => .ok (r, view s1)

/-- A call sequence run from a freshly initialised graph, followed by `rc_cleanup()`; the
result is the view of the final state. -/
def cleanup_after (P : Params) (fuel : Nat) (calls : List Call) :
    Except Fault (Option (ReferenceGraph × List (Option StrongRef))) :=
  match run P fuel (init_reference_graph P Mem.start) calls with
  | .error f => .error f
  | .ok s =>
    match rc_cleanup s with
    | .error f => .error f
    | .ok s1 => .ok (view s1)

/-- A call sequence run from a freshly initialised graph, followed by a second
`init_reference_graph()`; the result is the view of the final state. -/
def init_after (P : Params) (fuel : Nat) (calls : List Call) :
    Except Fault (Option (ReferenceGraph × List (Option StrongRef))) :=
  match run P fuel (init_reference_graph P Mem.start) calls with
  | .error f => .error f
  | .ok s => .ok (view (init_reference_graph P s))

/-- A state with two live entries: ids 0 and 1, strong references at 100 and 200 with
blocks 101 and 201 and counts 1 and 2; the block has room for 16 slots. -/
def two_entries : Mem :=
  { graph := some
      { allocations := [{ entry_id := 0, ref := 100 }, { entry_id := 1, ref := 200 }]
        n_allocations := 2
        size := 16
        next_entry_id := 2 }
    heap := fun a =>
      if a = 100 then some { ptr := 101, count := 1, dep_list := [] }
      else if a = 200 then some { ptr := 201, count := 2, dep_list := [] }
      else none }

end RC

/-! ## Lemmas on the scans -/

namespace RC

theorem first_index_eq_none (p : GraphEntry → Bool) (l : List GraphEntry) (i : Nat) :
    first_index p l i = none ↔ ∀ e ∈ l, p e = false := by
  induction l generalizing i with
  | nil => simp [first_index]
  | cons a l ih =>
    by_cases h : p a = true
    · simp [first_index, h]
    · simp [first_index, h, ih]

theorem first_index_of_first (p : GraphEntry → Bool) (l : List GraphEntry) (i j : Nat)
    (e : GraphEntry) (hj : l[j]? = some e) (hp : p e = true)
    (hfirst : ∀ k < j, ∀ a, l[k]? = some a → p a = false) :
    first_index p l i = some (i + j) := by
  induction l generalizing i j with
  | nil => simp at hj
  | cons a l ih =>
    cases j with
    | zero =>
      simp at hj
      subst hj
      simp [first_index, hp]
    | succ j =>
      have ha : p a = false := hfirst 0 (Nat.succ_pos j) a (by simp)
      simp only [first_index, ha]
      have := ih (i + 1) j (by simpa using hj)
        (fun k hk b hb => hfirst (k + 1) (Nat.succ_lt_succ hk) b (by simpa using hb))
      rw [this]
      simp
      omega

theorem first_index_some (p : GraphEntry → Bool) (l : List GraphEntry) (i k : Nat)
    (h : first_index p l i = some k) :
    ∃ j e, k = i + j ∧ l[j]? = some e ∧ p e = true ∧
      ∀ m < j, ∀ a, l[m]? = some a → p a = false := by
  induction l generalizing i with
  | nil => simp [first_index] at h
  | cons a l ih =>
    by_cases ha : p a = true
    · simp [first_index, ha] at h
      exact ⟨0, a, by omega, by simp, ha, by intro m hm; omega⟩
    · simp [first_index, ha] at h
      obtain ⟨j, e, hk, hj, hp, hfirst⟩ := ih (i + 1) h
      refine ⟨j + 1, e, by omega, by simpa using hj, hp, ?_⟩
      intro m hm b hb
      cases m with
      | zero => simp at hb; subst hb; simpa using ha
      | succ m => exact hfirst m (by omega) b (by simpa using hb)

theorem load_ok_ne_zero (s : Mem) (a : Nat) (r : StrongRef) (h : load s a = .ok r) :
    a ≠ 0 ∧ s.heap a = some r := by
  unfold load at h
  by_cases ha : a = 0
  · simp [ha] at h
  · simp only [ha, if_false] at h
    cases hh : s.heap a with
    | none => simp [hh] at h
    | some r1 => simp [hh] at h; simp [ha, h]

theorem load_of_heap (s : Mem) (a : Nat) (r : StrongRef) (ha : a ≠ 0)
    (h : s.heap a = some r) : load s a = .ok r := by
  simp [load, ha, h]

theorem get_graph_entry_by_id_eq_none (s : Mem) (g : ReferenceGraph) (x : Nat)
    (hg : s.graph = some g) :
    get_graph_entry_by_id s x = none ↔ ∀ e ∈ g.entries, e.entry_id ≠ x := by
  unfold get_graph_entry_by_id
  simp only [hg]
  rw [first_index_eq_none]
  simp

theorem rc_upgrade_null (s s1 : Mem) (w : WeakRef) (h : rc_upgrade s w = .ok (s1, 0)) :
    s1 = s ∧ (s.graph = none ∨ ∃ g, s.graph = some g ∧
      (g.next_entry_id ≤ w.entry_id ∨ get_graph_entry_by_id s w.entry_id = none)) := by
  unfold rc_upgrade at h
  cases hg : s.graph with
  | none =>
    simp only [hg] at h
    injection h with h
    injection h with h1 h2
    exact ⟨h1.symm, Or.inl rfl⟩
  | some g =>
    simp only [hg] at h
    by_cases hn : g.next_entry_id ≤ w.entry_id
    · simp only [hn, if_true] at h
      injection h with h
      injection h with h1 h2
      exact ⟨h1.symm, Or.inr ⟨g, rfl, Or.inl hn⟩⟩
    · simp only [hn, if_false] at h
      cases hi : get_graph_entry_by_id s w.entry_id with
      | none =>
        simp only [hi] at h
        injection h with h
        injection h with h1 h2
        exact ⟨h1.symm, Or.inr ⟨g, rfl, Or.inr rfl⟩⟩
      | some i =>
        simp only [hi] at h
        cases he : slot s i with
        | error f => simp [he] at h
        | ok e =>
          simp only [he] at h
          cases hr : load s e.ref with
          | error f => simp [hr] at h
          | ok r =>
            simp only [hr] at h
            injection h with h
            injection h with h1 h2
            exact absurd h2 (load_ok_ne_zero s e.ref r hr).1

/-- C5: `rc_upgrade(w)` returns `NULL` if and only if the graph is uninitialised, or
`w.entry_id` is the invalid sentinel `0xFFFFFFFFFFFFFFFF`, or `w.entry_id >= next_entry_id`,
or no entry of the store has this id; and whenever it returns `NULL` the state is
unchanged.  (`next_entry_id` is a `size_t`, hence below `2^64`.) -/
theorem rc_upgrade_fails_iff (s : Mem) (w : WeakRef)
    (hnext : ∀ g, s.graph = some g → g.next_entry_id < SIZE_MOD) :
    ((∃ s1, rc_upgrade s w = .ok (s1, 0)) ↔
      (s.graph = none ∨ w.entry_id = INVALID_ID ∨
        ∃ g, s.graph = some g ∧
          (g.next_entry_id ≤ w.entry_id ∨ ∀ e ∈ g.entries, e.entry_id ≠ w.entry_id))) ∧
    (∀ s1, rc_upgrade s w = .ok (s1, 0) → s1 = s) := by
  refine ⟨⟨?_, ?_⟩, fun s1 h => (rc_upgrade_null s s1 w h).1⟩
  · rintro ⟨s1, h⟩
    rcases (rc_upgrade_null s s1 w h).2 with h0 | ⟨g, hg, h1 | h1⟩
    · exact Or.inl h0
    · exact Or.inr (Or.inr ⟨g, hg, Or.inl h1⟩)
    · exact Or.inr (Or.inr ⟨g, hg, Or.inr ((get_graph_entry_by_id_eq_none s g _ hg).1 h1)⟩)
  · intro h
    refine ⟨s, ?_⟩
    unfold rc_upgrade
    cases hg : s.graph with
    | none => rfl
    | some g =>
      simp only []
      have hlt := hnext g hg
      rcases h with h | h | ⟨g1, hg1, h⟩
      · simp [hg] at h
      · have : g.next_entry_id ≤ w.entry_id := by
          rw [h]; unfold INVALID_ID; unfold SIZE_MOD at hlt; omega
        simp [this]
      · rw [hg] at hg1
        injection hg1 with hg1
        subst hg1
        rcases h with h | h
        · simp [h]
        · by_cases hn : g.next_entry_id ≤ w.entry_id
          · simp [hn]
          · simp only [hn, if_false]
            rw [(get_graph_entry_by_id_eq_none s g _ hg).2 h]

theorem entries_getElem? (g : ReferenceGraph) (i : Nat) (e : GraphEntry)
    (h : g.entries[i]? = some e) : g.allocations[i]? = some e ∧ i < g.n_allocations := by
  unfold ReferenceGraph.entries at h
  rw [List.getElem?_take] at h
  by_cases hi : i < g.n_allocations
  · simp [hi] at h; exact ⟨h, hi⟩
  · simp [hi] at h

theorem slot_of_entries (s : Mem) (g : ReferenceGraph) (i : Nat) (e : GraphEntry)
    (hg : s.graph = some g) (h : g.entries[i]? = some e) : slot s i = .ok e := by
  unfold slot
  simp [hg, (entries_getElem? g i e h).1]

/-- Upgrade on a consistent store: on an initialised graph, `rc_upgrade` of a weak
reference whose id is held by an entry of the store, when the first such entry `e`, at
position `i`, has a live strong reference `r`, returns `e.ref` and changes only the count of that strong reference, by
one (modulo `2^64`, the width of `size_t`); the graph record, hence `n_allocations`,
`size`, `next_entry_id` and every entry, and every other strong reference are unchanged. -/
theorem rc_upgrade_reacquires (s : Mem) (g : ReferenceGraph) (w : WeakRef) (i : Nat)
    (e : GraphEntry) (r : StrongRef)
    (hg : s.graph = some g) (hlt : w.entry_id < g.next_entry_id)
    (hi : g.entries[i]? = some e) (hid : e.entry_id = w.entry_id)
    (hfirst : ∀ j < i, ∀ a, g.entries[j]? = some a → a.entry_id ≠ w.entry_id)
    (hr : load s e.ref = .ok r) :
    rc_upgrade s w =
        .ok ({ graph := some g,
               heap := fun b =>
                 if b = e.ref then some { r with count := (r.count + 1) % SIZE_MOD }
                 else s.heap b },
             e.ref) ∧
      (r.count + 1 < SIZE_MOD → (r.count + 1) % SIZE_MOD = r.count + 1) := by
  refine ⟨?_, fun h => Nat.mod_eq_of_lt h⟩
  have hfi : get_graph_entry_by_id s w.entry_id = some i := by
    unfold get_graph_entry_by_id
    simp only [hg]
    have := first_index_of_first (fun e => decide (e.entry_id = w.entry_id)) g.entries 0 i e hi
      (by simpa using hid) (fun k hk a ha => by simpa using hfirst k hk a ha)
    simpa using this
  unfold rc_upgrade
  simp only [hg, Nat.not_le.mpr hlt, if_false, hfi, slot_of_entries s g i e hg hi, hr]
  simp [store, hg]

theorem find_reference_loop_first (s : Mem) (ptr : Nat) (l : List GraphEntry) (i : Nat)
    (e : GraphEntry) (r : StrongRef) (hi : l[i]? = some e) (hr : load s e.ref = .ok r)
    (hp : r.ptr = ptr)
    (hfirst : ∀ j < i, ∀ a, l[j]? = some a → ∃ q, load s a.ref = .ok q ∧ q.ptr ≠ ptr) :
    find_reference_loop s ptr l = .ok e.ref := by
  induction l generalizing i with
  | nil => simp at hi
  | cons a l ih =>
    cases i with
    | zero =>
      simp at hi
      subst hi
      simp [find_reference_loop, hr, hp]
    | succ i =>
      obtain ⟨q, hq, hne⟩ := hfirst 0 (Nat.succ_pos i) a (by simp)
      simp only [find_reference_loop, hq, hne, if_false]
      exact ih i (by simpa using hi)
        (fun j hj b hb => hfirst (j + 1) (Nat.succ_lt_succ hj) b (by simpa using hb))

/-- Re-acquire on a consistent store: on an initialised graph, `rc_alloc(ptr, n, dep)` with
a non-null `ptr` that is the block of an entry of the store (`e`, at position `i`, is the
first entry holding `ptr`, `r` is its strong reference, and every entry before it has a
live strong reference) returns `e.ref` and changes only the count of that
strong reference, by one (modulo `2^64`, the width of `size_t`).  The graph record is
untouched, so no entry is created and `n_allocations`, `next_entry_id` and every
`entry_id` are unchanged; every other strong reference, and the dependency list of this
one, are unchanged.  This holds for every `n` and every `dep`, null or not. -/
theorem rc_alloc_reacquires (P : Params) (s : Mem) (g : ReferenceGraph)
    (sr_addr ptr_addr ptr n dep : Nat) (i : Nat) (e : GraphEntry) (r : StrongRef)
    (hg : s.graph = some g) (hptr : ptr ≠ 0)
    (hi : g.entries[i]? = some e) (hr : load s e.ref = .ok r) (hp : r.ptr = ptr)
    (hfirst : ∀ j < i, ∀ a, g.entries[j]? = some a →
      ∃ q, load s a.ref = .ok q ∧ q.ptr ≠ ptr) :
    rc_alloc P s sr_addr ptr_addr ptr n dep =
        .ok ({ graph := some g,
               heap := fun b =>
                 if b = e.ref then
                   some { ptr := r.ptr, count := (r.count + 1) % SIZE_MOD,
                          dep_list := r.dep_list }
                 else s.heap b },
             e.ref) ∧
      (r.count + 1 < SIZE_MOD → (r.count + 1) % SIZE_MOD = r.count + 1) := by
  refine ⟨?_, fun h => Nat.mod_eq_of_lt h⟩
  have hf : find_reference s ptr = .ok e.ref := by
    unfold find_reference
    simp only [hg]
    exact find_reference_loop_first s ptr g.entries i e r hi hr hp hfirst
  have hne : e.ref ≠ 0 := (load_ok_ne_zero s e.ref r hr).1
  unfold rc_alloc
  simp only [hptr, if_false, hf, hr]
  simp [hne, store, hg]

theorem find_reference_loop_none (s : Mem) (ptr : Nat) (l : List GraphEntry)
    (h : ∀ e ∈ l, ∃ q, load s e.ref = .ok q ∧ q.ptr ≠ ptr) :
    find_reference_loop s ptr l = .ok 0 := by
  induction l with
  | nil => rfl
  | cons a l ih =>
    obtain ⟨q, hq, hne⟩ := h a (List.mem_cons_self a l)
    simp only [find_reference_loop, hq, hne, if_false]
    exact ih (fun e he => h e (List.mem_cons_of_mem a he))

/-- On an initialised graph whose entries all have a live strong reference, none with block
`ptr`, `rc_alloc(ptr, n, dep)` with a non-null `ptr` returns `NULL` and changes nothing. -/
theorem rc_alloc_unregistered_initialized (P : Params) (s : Mem) (g : ReferenceGraph)
    (sr_addr ptr_addr ptr n dep : Nat) (hg : s.graph = some g) (hptr : ptr ≠ 0)
    (h : ∀ e ∈ g.entries, ∃ q, load s e.ref = .ok q ∧ q.ptr ≠ ptr) :
    rc_alloc P s sr_addr ptr_addr ptr n dep = .ok (s, 0) := by
  have hf : find_reference s ptr = .ok 0 := by
    unfold find_reference
    simp only [hg]
    exact find_reference_loop_none s ptr g.entries h
  unfold rc_alloc
  simp [hptr, hf]

/-- C4 (the code faults): when the graph is uninitialised, `rc_alloc` with a non-null `ptr`
(here `ptr + 1`) reads `graph->n_allocations` through the null `graph` in
`find_reference`: the call does not return `NULL`, its behaviour is undefined.  The
other lookups (`get_graph_entry_from_ref`, `get_graph_entry_by_id`) test `!graph` first. -/
theorem rc_alloc_unregistered_uninitialized (P : Params) (heap : Nat → Option StrongRef)
    (sr_addr ptr_addr ptr n dep : Nat) :
    rc_alloc P { graph := none, heap := heap } sr_addr ptr_addr (ptr + 1) n dep =
      .error .undefined := by
  simp [rc_alloc, find_reference]

theorem write_slot_length (l : List GraphEntry) (i : Nat) (e : GraphEntry) :
    (write_slot l i e).length = max l.length (i + 1) := by
  unfold write_slot
  split
  · simp; omega
  · simp; omega

theorem write_slot_getElem?_self (l : List GraphEntry) (i : Nat) (e : GraphEntry) :
    (write_slot l i e)[i]? = some e := by
  unfold write_slot
  split
  · rename_i h; simp [h]
  · rename_i h
    rw [List.getElem?_append_right (by simp; omega)]
    simp
    have h0 : i - (l.length + (i - l.length)) = 0 := by omega
    rw [h0]
    rfl

theorem write_slot_getElem?_lt (l : List GraphEntry) (i j : Nat) (e : GraphEntry)
    (hj : j < i) (hjl : j < l.length) : (write_slot l i e)[j]? = l[j]? := by
  unfold write_slot
  split
  · rw [List.getElem?_set_ne (by omega)]
  · rw [List.append_assoc, List.getElem?_append_left hjl]

theorem take_write_slot (l : List GraphEntry) (i : Nat) (e : GraphEntry)
    (hi : i ≤ l.length) : (write_slot l i e).take (i + 1) = l.take i ++ [e] := by
  apply List.ext_getElem?
  intro j
  rw [List.getElem?_take]
  by_cases hj : j < i
  · have h1 : j < i + 1 := by omega
    simp only [h1, if_true]
    rw [write_slot_getElem?_lt l i j e hj (by omega)]
    rw [List.getElem?_append_left (by simp; omega), List.getElem?_take]
    simp [hj]
  · by_cases hji : j = i
    · subst hji
      simp only [Nat.lt_succ_self, if_true, write_slot_getElem?_self]
      rw [List.getElem?_append_right (by simp)]
      simp [Nat.min_eq_left hi]
    · have h1 : ¬ j < i + 1 := by omega
      simp only [h1, if_false]
      symm
      rw [List.getElem?_eq_none_iff]
      simp
      omega

theorem write_slot_twice (l : List GraphEntry) (i : Nat) (a b : GraphEntry) :
    write_slot (write_slot l i a) i b = write_slot l i b := by
  apply List.ext_getElem?
  intro j
  have hlen : i < (write_slot l i a).length := by rw [write_slot_length]; omega
  by_cases hji : j = i
  · subst hji
    rw [write_slot_getElem?_self, write_slot_getElem?_self]
  · have h1 : (write_slot (write_slot l i a) i b)[j]? = (write_slot l i a)[j]? := by
      conv_lhs => rw [write_slot]
      simp only [hlen, if_true]
      rw [List.getElem?_set_ne (by omega)]
    rw [h1]
    unfold write_slot
    split
    · rw [List.getElem?_set_ne (by omega), List.getElem?_set_ne (by omega)]
    · rename_i h
      by_cases hjl : j < l.length + (i - l.length)
      · have hl : j < (l ++ List.replicate (i - l.length)
            ({ entry_id := 0, ref := 0 } : GraphEntry)).length := by simpa using hjl
        rw [List.getElem?_append_left hl, List.getElem?_append_left hl]
      · rw [List.getElem?_eq_none_iff.2 (by simp; omega),
          List.getElem?_eq_none_iff.2 (by simp; omega)]

theorem new_graph_entry_eq (P : Params) (s : Mem) (sr_addr ptr_addr n dep : Nat)
    (g : ReferenceGraph) (hg : g = s.graph.getD (empty_graph P))
    (hcap : g.n_allocations ≤ g.size) (hpos : 1 ≤ g.size)
    (hrt : 2 ≤ P.RC_GROWTH_RT) (hmul : g.size * P.RC_GROWTH_RT < SIZE_MOD) :
    new_graph_entry P s sr_addr ptr_addr n dep =
      match allocate { graph := some (grown P g (stale_ref g)), heap := s.heap }
          sr_addr ptr_addr n dep with
      | .error f => .error f
      | .ok s3 => .ok ({ s3 with graph := some (grown P g sr_addr) }, g.n_allocations) := by
  have hs0 : (if s.graph.isNone then init_reference_graph P s else s)
      = { graph := some g, heap := s.heap } := by
    cases hs : s.graph with
    | none => simp [hs, init_reference_graph, hg]
    | some g0 =>
      simp [hs, hg]
      cases s
      simp_all
  unfold new_graph_entry
  rw [hs0]
  simp only []
  have h2 : g.size * 2 ≤ g.size * P.RC_GROWTH_RT := Nat.mul_le_mul_left _ hrt
  have hn1 : (g.n_allocations + 1) % SIZE_MOD = g.n_allocations + 1 :=
    Nat.mod_eq_of_lt (by omega)
  by_cases hfull : g.size = g.n_allocations
  · have hgrow : g.size * P.RC_GROWTH_RT % SIZE_MOD = g.size * P.RC_GROWTH_RT :=
      Nat.mod_eq_of_lt hmul
    have hroom : ¬ g.size * P.RC_GROWTH_RT ≤ g.n_allocations := by omega
    simp only [hfull, if_true] at hgrow hroom ⊢
    simp only [hgrow, hroom, if_false, hn1]
    simp only [grown, stale_ref, hfull, if_true, hgrow, write_slot_twice]
  · have hroom : ¬ g.size ≤ g.n_allocations := by omega
    simp only [hfull, if_false, hroom, hn1]
    simp only [grown, stale_ref, hfull, if_false, write_slot_twice]

theorem grown_entries (P : Params) (g : ReferenceGraph) (ref : Nat)
    (hlen : g.n_allocations ≤ g.allocations.length) :
    (grown P g ref).entries = g.entries ++ [{ entry_id := g.next_entry_id, ref := ref }] := by
  unfold ReferenceGraph.entries grown
  exact take_write_slot g.allocations g.n_allocations _ hlen

theorem allocate_no_dep (s : Mem) (sr_addr ptr_addr n : Nat) :
    allocate s sr_addr ptr_addr n 0 =
      .ok (store s sr_addr { ptr := ptr_addr, count := 1, dep_list := [] }) := by
  unfold allocate
  have : get_graph_entry_from_ref
      (store s sr_addr { ptr := ptr_addr, count := 1, dep_list := [] }) 0 = none := by
    unfold get_graph_entry_from_ref
    cases (store s sr_addr { ptr := ptr_addr, count := 1, dep_list := [] }).graph <;> simp
  simp [this]

/-- C1: `rc_alloc(NULL, n, NULL)` works on the graph `g` that is the current one or, when
there is none, the one the implicit initialisation builds.  Provided the block has room
(`n_allocations <= size`, `size >= 1`, `RC_GROWTH_RT >= 2`, no overflow of
`size * RC_GROWTH_RT`) and the first `n_allocations` slots have been written, the call
returns the new strong reference `sr_addr`; the entries of the store are the previous ones,
unchanged, followed by one new entry whose id is the previous `next_entry_id` and whose
strong reference has `count == 1` and no dependency; `n_allocations` grows by one and
`next_entry_id` by one (modulo `2^64`); no other strong reference is touched. -/
theorem rc_alloc_fresh (P : Params) (s : Mem) (sr_addr ptr_addr n : Nat)
    (g : ReferenceGraph) (hg : g = s.graph.getD (empty_graph P))
    (hsr : sr_addr ≠ 0)
    (hlen : g.n_allocations ≤ g.allocations.length)
    (hcap : g.n_allocations ≤ g.size) (hpos : 1 ≤ g.size)
    (hrt : 2 ≤ P.RC_GROWTH_RT) (hmul : g.size * P.RC_GROWTH_RT < SIZE_MOD) :
    ∃ s1 g1, rc_alloc P s sr_addr ptr_addr 0 n 0 = .ok (s1, sr_addr) ∧
      s1.graph = some g1 ∧
      g1.entries = g.entries ++ [{ entry_id := g.next_entry_id, ref := sr_addr }] ∧
      load s1 sr_addr = .ok { ptr := ptr_addr, count := 1, dep_list := [] } ∧
      g1.n_allocations = g.n_allocations + 1 ∧
      g1.next_entry_id = (g.next_entry_id + 1) % SIZE_MOD ∧
      (g.next_entry_id + 1 < SIZE_MOD → g1.next_entry_id = g.next_entry_id + 1) ∧
      (∀ a, a ≠ sr_addr → s1.heap a = s.heap a) := by
  have hnew := new_graph_entry_eq P s sr_addr ptr_addr n 0 g hg hcap hpos hrt hmul
  rw [allocate_no_dep] at hnew
  simp only [] at hnew
  refine ⟨{ graph := some (grown P g sr_addr),
             heap := (store { graph := some (grown P g (stale_ref g)), heap := s.heap }
               sr_addr { ptr := ptr_addr, count := 1, dep_list := [] }).heap },
    grown P g sr_addr, ?_, rfl, grown_entries P g sr_addr hlen, ?_, rfl, rfl,
    fun h => Nat.mod_eq_of_lt h, ?_⟩
  · unfold rc_alloc
    simp only [if_true, hnew]
    simp [slot, grown, write_slot_getElem?_self]
  · simp [load, store, hsr]
  · intro a ha
    simp [store, ha]

/-- C7: `rc_downgrade` returns the invalid weak reference, whose `entry_id` is
`0xFFFFFFFFFFFFFFFF`, and leaves the state as it was, whenever the strong reference is
`NULL`, or the graph is uninitialised, or no entry of the store holds the strong
reference. -/
theorem rc_downgrade_invalid (P : Params) (fuel : Nat) (s : Mem) (ref : Nat)
    (h : ref = 0 ∨ s.graph = none ∨
      ∃ g, s.graph = some g ∧ ∀ e ∈ g.entries, e.ref ≠ ref) :
    rc_downgrade P fuel s ref = .ok (s, { entry_id := INVALID_ID }) ∧
      INVALID_ID = 0xFFFFFFFFFFFFFFFF := by
  refine ⟨?_, by decide⟩
  unfold rc_downgrade
  rcases h with h | h | ⟨g, hg, h⟩
  · simp [h]
  · simp [h]
  · by_cases hr : ref = 0
    · simp [hr]
    · have hnone : get_graph_entry_from_ref s ref = none := by
        unfold get_graph_entry_from_ref
        simp only [hg, hr, if_false]
        rw [first_index_eq_none]
        intro e he
        simpa using h e he
      simp [hg, hr, hnone]

/-- C8 (the code fails): from a fresh graph, after `rc_alloc`, `rc_downgrade` of it, and two
more `rc_alloc`, the store holds the entries with ids 1 and 2, both with count 1.  The
round trip on the first one (strong reference 200) brings its count to 0, yet
`rc_downgrade` returns the valid weak reference 1 and `rc_upgrade` returns 200, not
`NULL`. -/
theorem round_trip_after_count_zero :
    view_after ⟨16, 2⟩ 10
        [.alloc 100 101 0 8 0, .downgrade 100, .alloc 200 201 0 8 0, .alloc 300 301 0 8 0] =
      .ok (some (⟨[⟨1, 200⟩, ⟨2, 300⟩], 2, 8, 3⟩,
        [some ⟨201, 1, []⟩, some ⟨301, 1, []⟩])) ∧
    round_trip_after ⟨16, 2⟩ 10
        [.alloc 100 101 0 8 0, .downgrade 100, .alloc 200 201 0 8 0, .alloc 300 301 0 8 0]
        200 =
      .ok (⟨1⟩, some ⟨201, 0, []⟩, 200) := by
  decide!

/-- C9 (the code fails): from a fresh graph, after `rc_alloc`, `rc_downgrade` of it, two more
`rc_alloc` and `rc_downgrade` of the first of these, the entry with id 1 has count 0 and
is still in the store (the strong reference of the entry with id 2 was freed instead);
`rc_upgrade` of the weak reference 1 then returns its strong reference 200, not `NULL`. -/
theorem upgrade_after_count_zero :
    upgrade_after ⟨16, 2⟩ 10
        [.alloc 100 101 0 8 0, .downgrade 100, .alloc 200 201 0 8 0, .alloc 300 301 0 8 0,
          .downgrade 200] ⟨1⟩ =
      .ok (some (⟨[⟨1, 200⟩, ⟨2, 300⟩], 1, 4, 3⟩, [some ⟨201, 0, []⟩]), 200) := by
  decide!

/-- C10 (the code fails): from a fresh graph, after three `rc_alloc` (ids 0, 1, 2) and
`rc_downgrade` of the first, the entries in positions 0 and 1 both have `entry_id == 1`:
`delete_entry` moved two bytes, the low bytes of the id in slot 1, over slot 0. -/
theorem duplicate_ids_after_delete :
    view_after ⟨16, 2⟩ 10
        [.alloc 100 101 0 8 0, .alloc 200 201 0 8 0, .alloc 300 301 0 8 0, .downgrade 100] =
      .ok (some (⟨[⟨1, 100⟩, ⟨1, 200⟩, ⟨2, 300⟩], 2, 8, 3⟩, [none, some ⟨201, 1, []⟩])) := by
  decide!

/-- Witness of `rc_alloc_fresh`: a fresh allocation on the state `two_entries`. -/
theorem rc_alloc_fresh_witness :
    ((⟨[⟨0, 100⟩, ⟨1, 200⟩], 2, 16, 2⟩ : ReferenceGraph) =
        two_entries.graph.getD (empty_graph ⟨16, 2⟩) ∧
      300 ≠ 0 ∧ 2 ≤ [(⟨0, 100⟩ : GraphEntry), ⟨1, 200⟩].length ∧ 2 ≤ 16 ∧ 1 ≤ 16 ∧
      2 ≤ (⟨16, 2⟩ : Params).RC_GROWTH_RT ∧ 16 * (⟨16, 2⟩ : Params).RC_GROWTH_RT < SIZE_MOD) ∧
      ∃ s1 g1, rc_alloc ⟨16, 2⟩ two_entries 300 301 0 8 0 = .ok (s1, 300) ∧
        s1.graph = some g1 ∧
        g1.entries = (⟨[⟨0, 100⟩, ⟨1, 200⟩], 2, 16, 2⟩ : ReferenceGraph).entries ++
          [{ entry_id := 2, ref := 300 }] ∧
        load s1 300 = .ok { ptr := 301, count := 1, dep_list := [] } ∧
        g1.n_allocations = 2 + 1 ∧
        g1.next_entry_id = (2 + 1) % SIZE_MOD ∧
        (2 + 1 < SIZE_MOD → g1.next_entry_id = 2 + 1) ∧
        (∀ a, a ≠ 300 → s1.heap a = two_entries.heap a) :=
  ⟨⟨rfl, by decide, by decide, by decide, by decide, by decide, by decide⟩,
    rc_alloc_fresh ⟨16, 2⟩ two_entries 300 301 8 ⟨[⟨0, 100⟩, ⟨1, 200⟩], 2, 16, 2⟩ rfl
      (by decide) (by decide) (by decide) (by decide) (by decide) (by decide)⟩

theorem two_entries_first :
    ∀ j < 1, ∀ a, (⟨[⟨0, 100⟩, ⟨1, 200⟩], 2, 16, 2⟩ : ReferenceGraph).entries[j]? = some a →
      a.ref ≠ 200 ∧ a.entry_id ≠ 1 ∧
        ∃ q, load two_entries a.ref = .ok q ∧ q.ptr ≠ 201 := by
  intro j hj a ha
  have hj0 : j = 0 := by omega
  subst hj0
  have : a = ⟨0, 100⟩ := by
    simp [ReferenceGraph.entries] at ha
    exact ha.symm
  subst this
  exact ⟨by decide, by decide, ⟨101, 1, []⟩, by decide, by decide⟩

/-- Witness of `rc_alloc_reacquires`: re-acquiring the block 201 of the second entry of
`two_entries`. -/
theorem rc_alloc_reacquires_witness :
    (two_entries.graph = some ⟨[⟨0, 100⟩, ⟨1, 200⟩], 2, 16, 2⟩ ∧ 201 ≠ 0 ∧
      (⟨[⟨0, 100⟩, ⟨1, 200⟩], 2, 16, 2⟩ : ReferenceGraph).entries[1]? = some ⟨1, 200⟩ ∧
      load two_entries (⟨1, 200⟩ : GraphEntry).ref = .ok ⟨201, 2, []⟩ ∧
      (∀ j < 1, ∀ a,
        (⟨[⟨0, 100⟩, ⟨1, 200⟩], 2, 16, 2⟩ : ReferenceGraph).entries[j]? = some a →
          ∃ q, load two_entries a.ref = .ok q ∧ q.ptr ≠ 201)) ∧
      rc_alloc ⟨16, 2⟩ two_entries 300 301 201 8 100 =
        .ok ({ graph := some ⟨[⟨0, 100⟩, ⟨1, 200⟩], 2, 16, 2⟩,
               heap := fun b =>
                 if b = 200 then some { ptr := 201, count := (2 + 1) % SIZE_MOD, dep_list := [] }
                 else two_entries.heap b },
             200) ∧
      (2 + 1 < SIZE_MOD → (2 + 1) % SIZE_MOD = 2 + 1) :=
  ⟨⟨rfl, by decide, by decide, by decide,
      fun j hj a ha => (two_entries_first j hj a ha).2.2⟩,
    rc_alloc_reacquires ⟨16, 2⟩ two_entries ⟨[⟨0, 100⟩, ⟨1, 200⟩], 2, 16, 2⟩ 300 301 201 8 100
      1 ⟨1, 200⟩ ⟨201, 2, []⟩ rfl (by decide) (by decide) (by decide) rfl
      (fun j hj a ha => (two_entries_first j hj a ha).2.2)⟩

/-- Witness of `rc_upgrade_fails_iff`: the state `two_entries`, id 7 was never issued. -/
theorem rc_upgrade_fails_iff_witness :
    (∀ g, two_entries.graph = some g → g.next_entry_id < SIZE_MOD) ∧
    ((∃ s1, rc_upgrade two_entries ⟨7⟩ = .ok (s1, 0)) ↔
      (two_entries.graph = none ∨ (⟨7⟩ : WeakRef).entry_id = INVALID_ID ∨
        ∃ g, two_entries.graph = some g ∧
          (g.next_entry_id ≤ (⟨7⟩ : WeakRef).entry_id ∨
            ∀ e ∈ g.entries, e.entry_id ≠ (⟨7⟩ : WeakRef).entry_id))) ∧
    (∀ s1, rc_upgrade two_entries ⟨7⟩ = .ok (s1, 0) → s1 = two_entries) :=
  ⟨fun g hg => by
      have : g = ⟨[⟨0, 100⟩, ⟨1, 200⟩], 2, 16, 2⟩ := (Option.some.inj hg).symm
      subst this
      decide,
    rc_upgrade_fails_iff two_entries ⟨7⟩ (fun g hg => by
      have : g = ⟨[⟨0, 100⟩, ⟨1, 200⟩], 2, 16, 2⟩ := (Option.some.inj hg).symm
      subst this
      decide)⟩

/-- Witness of `rc_upgrade_reacquires`: upgrading the weak reference 1 on `two_entries`. -/
theorem rc_upgrade_reacquires_witness :
    (two_entries.graph = some ⟨[⟨0, 100⟩, ⟨1, 200⟩], 2, 16, 2⟩ ∧
      (⟨1⟩ : WeakRef).entry_id < 2 ∧
      (⟨[⟨0, 100⟩, ⟨1, 200⟩], 2, 16, 2⟩ : ReferenceGraph).entries[1]? = some ⟨1, 200⟩ ∧
      (⟨1, 200⟩ : GraphEntry).entry_id = (⟨1⟩ : WeakRef).entry_id ∧
      (∀ j < 1, ∀ a,
        (⟨[⟨0, 100⟩, ⟨1, 200⟩], 2, 16, 2⟩ : ReferenceGraph).entries[j]? = some a →
          a.entry_id ≠ (⟨1⟩ : WeakRef).entry_id) ∧
      load two_entries (⟨1, 200⟩ : GraphEntry).ref = .ok ⟨201, 2, []⟩) ∧
      rc_upgrade two_entries ⟨1⟩ =
        .ok ({ graph := some ⟨[⟨0, 100⟩, ⟨1, 200⟩], 2, 16, 2⟩,
               heap := fun b =>
                 if b = 200 then some { ptr := 201, count := (2 + 1) % SIZE_MOD, dep_list := [] }
                 else two_entries.heap b },
             200) ∧
      (2 + 1 < SIZE_MOD → (2 + 1) % SIZE_MOD = 2 + 1) :=
  ⟨⟨rfl, by decide, by decide, rfl,
      fun j hj a ha => (two_entries_first j hj a ha).2.1, by decide⟩,
    rc_upgrade_reacquires two_entries ⟨[⟨0, 100⟩, ⟨1, 200⟩], 2, 16, 2⟩ ⟨1⟩ 1 ⟨1, 200⟩
      ⟨201, 2, []⟩ rfl (by decide) (by decide) rfl
      (fun j hj a ha => (two_entries_first j hj a ha).2.1) (by decide)⟩

/-- Witness of `rc_downgrade_invalid`: the pointer 300 is held by no entry of
`two_entries`. -/
theorem rc_downgrade_invalid_witness :
    ((300 : Nat) = 0 ∨ two_entries.graph = none ∨
      ∃ g, two_entries.graph = some g ∧ ∀ e ∈ g.entries, e.ref ≠ 300) ∧
    rc_downgrade ⟨16, 2⟩ 10 two_entries 300 = .ok (two_entries, { entry_id := INVALID_ID }) ∧
      INVALID_ID = 0xFFFFFFFFFFFFFFFF :=
  ⟨Or.inr (Or.inr ⟨⟨[⟨0, 100⟩, ⟨1, 200⟩], 2, 16, 2⟩, rfl, by decide⟩),
    rc_downgrade_invalid ⟨16, 2⟩ 10 two_entries 300
      (Or.inr (Or.inr ⟨⟨[⟨0, 100⟩, ⟨1, 200⟩], 2, 16, 2⟩, rfl, by decide⟩))⟩

theorem same_capacity_refl (s : Mem) (g : ReferenceGraph) (h : s.graph = some g) :
    same_capacity g s :=
  ⟨g, h, rfl, rfl, Nat.le_refl _⟩

theorem same_capacity_trans (g g1 : ReferenceGraph) (s1 s2 : Mem)
    (h1 : same_capacity g s1) (hg1 : s1.graph = some g1) (h2 : same_capacity g1 s2) :
    same_capacity g s2 := by
  obtain ⟨a, ha, ha1, ha2, ha3⟩ := h1
  obtain ⟨b, hb, hb1, hb2, hb3⟩ := h2
  rw [hg1] at ha
  injection ha with ha
  subst ha
  exact ⟨b, hb, by omega, by omega, by omega⟩

theorem delete_entry_capacity (s s1 : Mem) (g : ReferenceGraph) (index : Nat)
    (hg : s.graph = some g) (h : delete_entry s index = .ok s1) : same_capacity g s1 := by
  unfold delete_entry at h
  simp only [hg] at h
  split at h
  · exact Except.noConfusion h
  · split at h
    · exact Except.noConfusion h
    · split at h
      · exact Except.noConfusion h
      · split at h
        · exact Except.noConfusion h
        · split at h
          · exact Except.noConfusion h
          · injection h with h
            subst h
            exact ⟨_, rfl, rfl, rfl, Nat.sub_le _ _⟩

theorem decrament_capacity (fuel : Nat) :
    (∀ s g ge s1, s.graph = some g → decrament_count fuel s ge = .ok s1 →
      same_capacity g s1) ∧
    (∀ s g p i s1, s.graph = some g → decrament_outer fuel s p i = .ok s1 →
      same_capacity g s1) ∧
    (∀ s g p i j s1, s.graph = some g → decrament_inner fuel s p i j = .ok s1 →
      same_capacity g s1) := by
  induction fuel with
  | zero =>
    refine ⟨?_, ?_, ?_⟩
    · intro s g ge s1 _ h
      simp [decrament_count] at h
    · intro s g p i s1 _ h
      simp [decrament_outer] at h
    · intro s g p i j s1 _ h
      simp [decrament_inner] at h
  | succ fuel ih =>
    obtain ⟨ihc, iho, ihi⟩ := ih
    refine ⟨?_, ?_, ?_⟩
    · intro s g ge s1 hg h
      unfold decrament_count at h
      cases ge with
      | none =>
        simp only [] at h
        injection h with h
        subst h
        exact same_capacity_refl s g hg
      | some p =>
        simp only [] at h
        split at h
        · exact Except.noConfusion h
        · split at h
          · injection h with h
            subst h
            exact same_capacity_refl s g hg
          · split at h
            · exact Except.noConfusion h
            · rename_i s2 hs2
              have hc2 := iho s g p 0 s2 hg hs2
              obtain ⟨g2, hg2, _⟩ := id hc2
              split at h
              · exact Except.noConfusion h
              · split at h
                · exact Except.noConfusion h
                · rename_i e _ r _
                  split at h
                  · exact same_capacity_trans g g2 s2 s1 hc2 hg2
                      (delete_entry_capacity _ s1 g2 _ (by simpa [store] using hg2) h)
                  · injection h with h
                    subst h
                    obtain ⟨a, ha, ha1, ha2, ha3⟩ := hc2
                    exact ⟨a, by simpa [store] using ha, ha1, ha2, ha3⟩
    · intro s g p i s1 hg h
      unfold decrament_outer at h
      simp only [hg] at h
      split at h
      · exact ihi s g p i 0 s1 hg h
      · injection h with h
        subst h
        exact same_capacity_refl s g hg
    · intro s g p i j s1 hg h
      unfold decrament_inner at h
      split at h
      · exact Except.noConfusion h
      · split at h
        · exact Except.noConfusion h
        · split at h
          · exact iho s g p (i + 1) s1 hg h
          · split at h
            · exact Except.noConfusion h
            · split at h
              · split at h
                · exact Except.noConfusion h
                · rename_i s2 hs2
                  have hc2 := ihc s g (some i) s2 hg hs2
                  obtain ⟨g2, hg2, _⟩ := id hc2
                  exact same_capacity_trans g g2 s2 s1 hc2 hg2 (ihi s2 g2 p i (j + 1) s1 hg2 h)
              · exact ihi s g p i (j + 1) s1 hg h

theorem rc_upgrade_graph (s s1 : Mem) (w : WeakRef) (r : Nat)
    (h : rc_upgrade s w = .ok (s1, r)) : s1.graph = s.graph := by
  unfold rc_upgrade at h
  split at h
  · injection h with h; injection h with h1 h2; rw [← h1]
  · split at h
    · injection h with h; injection h with h1 h2; rw [← h1]
    · split at h
      · injection h with h; injection h with h1 h2; rw [← h1]
      · split at h
        · exact Except.noConfusion h
        · split at h
          · exact Except.noConfusion h
          · injection h with h; injection h with h1 h2; rw [← h1]; rfl

theorem rc_alloc_reacquire_graph (P : Params) (s s1 : Mem) (sr_addr ptr_addr ptr n dep r : Nat)
    (hptr : ptr ≠ 0) (h : rc_alloc P s sr_addr ptr_addr ptr n dep = .ok (s1, r)) :
    s1.graph = s.graph := by
  unfold rc_alloc at h
  simp only [hptr, if_false] at h
  split at h
  · exact Except.noConfusion h
  · split at h
    · split at h
      · exact Except.noConfusion h
      · injection h with h; injection h with h1 h2; rw [← h1]; rfl
    · injection h with h; injection h with h1 h2; rw [← h1]

theorem allocate_graph (s s1 : Mem) (sr_addr ptr_addr n dep : Nat)
    (h : allocate s sr_addr ptr_addr n dep = .ok s1) : s1.graph = s.graph := by
  unfold allocate at h
  simp only [] at h
  split at h
  · split at h
    · injection h with h; rw [← h]; rfl
    · split at h
      · exact Except.noConfusion h
      · split at h
        · exact Except.noConfusion h
        · injection h with h; rw [← h]; rfl
  · injection h with h; rw [← h]; rfl

theorem new_graph_entry_general (P : Params) (s : Mem) (sr_addr ptr_addr n dep : Nat) :
    new_graph_entry P s sr_addr ptr_addr n dep =
      if size_after_growth P (s.graph.getD (empty_graph P)) ≤
          (s.graph.getD (empty_graph P)).n_allocations then .error .undefined
      else
        match allocate
            { graph := some
                { allocations := write_slot (s.graph.getD (empty_graph P)).allocations
                    (s.graph.getD (empty_graph P)).n_allocations
                    { entry_id := (s.graph.getD (empty_graph P)).next_entry_id,
                      ref := stale_ref (s.graph.getD (empty_graph P)) }
                  n_allocations := ((s.graph.getD (empty_graph P)).n_allocations + 1) % SIZE_MOD
                  size := size_after_growth P (s.graph.getD (empty_graph P))
                  next_entry_id :=
                    ((s.graph.getD (empty_graph P)).next_entry_id + 1) % SIZE_MOD },
              heap := s.heap } sr_addr ptr_addr n dep with
        | .error f => .error f
        | .ok s3 =>
          .ok ({ graph := some
                  { allocations := write_slot (s.graph.getD (empty_graph P)).allocations
                      (s.graph.getD (empty_graph P)).n_allocations
                      { entry_id := (s.graph.getD (empty_graph P)).next_entry_id,
                        ref := sr_addr }
                    n_allocations :=
                      ((s.graph.getD (empty_graph P)).n_allocations + 1) % SIZE_MOD
                    size := size_after_growth P (s.graph.getD (empty_graph P))
                    next_entry_id :=
                      ((s.graph.getD (empty_graph P)).next_entry_id + 1) % SIZE_MOD },
                 heap := s3.heap },
               (s.graph.getD (empty_graph P)).n_allocations) := by
  have hs0 : (if s.graph.isNone then init_reference_graph P s else s)
      = { graph := some (s.graph.getD (empty_graph P)), heap := s.heap } := by
    cases hs : s.graph with
    | none => simp [hs, init_reference_graph]
    | some g0 =>
      simp [hs]
      cases s
      simp_all
  unfold new_graph_entry
  rw [hs0]
  simp only []
  generalize s.graph.getD (empty_graph P) = g
  by_cases hfull : g.size = g.n_allocations
  · simp only [hfull, if_true, size_after_growth, stale_ref, write_slot_twice]
  · simp only [hfull, if_false, size_after_growth, stale_ref, write_slot_twice]

theorem new_graph_entry_graph (P : Params) (s s1 : Mem) (sr_addr ptr_addr n dep i : Nat)
    (h : new_graph_entry P s sr_addr ptr_addr n dep = .ok (s1, i)) :
    ∃ g1, s1.graph = some g1 ∧
      g1.size = size_after_growth P (s.graph.getD (empty_graph P)) ∧
      (s.graph.getD (empty_graph P)).n_allocations < g1.size ∧
      g1.n_allocations = ((s.graph.getD (empty_graph P)).n_allocations + 1) % SIZE_MOD ∧
      g1.next_entry_id = ((s.graph.getD (empty_graph P)).next_entry_id + 1) % SIZE_MOD ∧
      i = (s.graph.getD (empty_graph P)).n_allocations := by
  rw [new_graph_entry_general] at h
  split at h
  · exact Except.noConfusion h
  · rename_i hroom
    split at h
    · exact Except.noConfusion h
    · injection h with h
      injection h with h1 h2
      subst h1
      exact ⟨_, rfl, rfl, by simpa using hroom, rfl, rfl, h2.symm⟩

theorem get_graph_entry_from_ref_slot (s : Mem) (ref q : Nat)
    (h : get_graph_entry_from_ref s ref = some q) :
    ∃ g e, s.graph = some g ∧ ref ≠ 0 ∧ g.entries[q]? = some e ∧ e.ref = ref ∧
      slot s q = .ok e := by
  unfold get_graph_entry_from_ref at h
  cases hg : s.graph with
  | none => simp [hg] at h
  | some g =>
    simp only [hg] at h
    by_cases hr : ref = 0
    · simp [hr] at h
    · simp only [hr, if_false] at h
      obtain ⟨j, e, hq, hj, hp, _⟩ := first_index_some _ _ _ _ h
      have hq2 : q = j := by omega
      subst hq2
      exact ⟨g, e, rfl, hr, hj, by simpa using hp, slot_of_entries s g q e hg hj⟩

theorem rc_downgrade_found (P : Params) (fuel : Nat) (s : Mem) (ref p : Nat)
    (hp : get_graph_entry_from_ref s ref = some p) :
    rc_downgrade P fuel s ref =
      match decrament_count fuel s (some p) with
      | .error f => .error f
      | .ok sc =>
        match sc.graph with
        | none => .error .undefined
        | some gc =>
          if P.RC_GROWTH_RT = 0 then .error .undefined
          else
            match get_graph_entry_from_ref { graph := some (shrunk P gc), heap := sc.heap }
                ref with
            | none =>
              .ok ({ graph := some (shrunk P gc), heap := sc.heap }, { entry_id := INVALID_ID })
            | some q =>
              match slot { graph := some (shrunk P gc), heap := sc.heap } q with
              | .error f => .error f
              | .ok e =>
                .ok ({ graph := some (shrunk P gc), heap := sc.heap },
                  { entry_id := e.entry_id }) := by
  obtain ⟨g, e, hg, hr, _, _, _⟩ := get_graph_entry_from_ref_slot s ref p hp
  unfold rc_downgrade
  simp only [hg, hr, hp, Option.isNone_some, or_self, if_false]
  rfl

theorem shrunk_graph (P : Params) (gc : ReferenceGraph) :
    (shrunk P gc).size = size_after_shrink P gc.size gc.n_allocations ∧
    (shrunk P gc).n_allocations = gc.n_allocations ∧
    (shrunk P gc).next_entry_id = gc.next_entry_id := by
  unfold size_after_shrink shrunk
  split <;> exact ⟨rfl, rfl, rfl⟩

theorem rc_downgrade_not_found (P : Params) (fuel : Nat) (s : Mem) (ref : Nat)
    (h : get_graph_entry_from_ref s ref = none) :
    rc_downgrade P fuel s ref = .ok (s, { entry_id := INVALID_ID }) := by
  unfold rc_downgrade
  simp only [h]
  split <;> rfl

theorem rc_downgrade_returns (P : Params) (fuel : Nat) (s sc : Mem) (ref p : Nat)
    (hp : get_graph_entry_from_ref s ref = some p)
    (hsc : decrament_count fuel s (some p) = .ok sc) (hrt : P.RC_GROWTH_RT ≠ 0) :
    ∃ g gc s1 w, s.graph = some g ∧ sc.graph = some gc ∧ gc.size = g.size ∧
      rc_downgrade P fuel s ref = .ok (s1, w) ∧ s1.graph = some (shrunk P gc) := by
  obtain ⟨g, e, hg, hr, _, _, _⟩ := get_graph_entry_from_ref_slot s ref p hp
  obtain ⟨gc, hgc, hsz, _, _⟩ := (decrament_capacity fuel).1 s g (some p) sc hg hsc
  rw [rc_downgrade_found P fuel s ref p hp]
  simp only [hsc, hgc, hrt, if_false]
  cases hq : get_graph_entry_from_ref { graph := some (shrunk P gc), heap := sc.heap } ref with
  | none => exact ⟨g, gc, _, _, hg, rfl, hsz, rfl, rfl⟩
  | some q =>
    obtain ⟨g2, e2, hg2, _, _, _, hslot⟩ := get_graph_entry_from_ref_slot _ ref q hq
    simp only [hslot]
    exact ⟨g, gc, _, _, hg, rfl, hsz, rfl, rfl⟩

/-- Growth and shrink of the capacity in `rc_alloc`, `rc_downgrade` and `rc_upgrade`.  Here
`g` is the graph a call works on (the current one, or
the one the implicit initialisation builds).
(1) Whenever `new_graph_entry` returns, the new `size` is `size * RC_GROWTH_RT` (as a
`size_t`) if `size == n_allocations` held before the insertion, and the old `size`
otherwise; and it does return, for a null `dep`, when the block has room
(`n_allocations <= size`, `size >= 1`, `RC_GROWTH_RT >= 2`, no overflow).
(2) `rc_downgrade` on a strong reference held by an entry of the store (found at position
`p`) returns whenever the cascade `decrament_count` does; the cascade leaves `size` as it
was, and the final `size` is `size / RC_GROWTH_RT` if the cascade left
`n_allocations < size / RC_GROWTH_RT`, and the old `size` otherwise.
(3) `rc_upgrade`, `rc_alloc` with a non-null `ptr`, and `rc_downgrade` on a strong
reference that no entry holds leave the graph record, hence `size`, as it was. -/
theorem capacity_policy (P : Params) (s : Mem) (g : ReferenceGraph)
    (hg : g = s.graph.getD (empty_graph P)) :
    (∀ sr_addr ptr_addr n dep s1 i,
      new_graph_entry P s sr_addr ptr_addr n dep = .ok (s1, i) →
      ∃ g1, s1.graph = some g1 ∧
        g1.size = (if g.size = g.n_allocations then g.size * P.RC_GROWTH_RT % SIZE_MOD
          else g.size)) ∧
    (g.n_allocations ≤ g.size → 1 ≤ g.size → 2 ≤ P.RC_GROWTH_RT →
      g.size * P.RC_GROWTH_RT < SIZE_MOD →
      ∀ sr_addr ptr_addr n, ∃ s1 i, new_graph_entry P s sr_addr ptr_addr n 0 = .ok (s1, i)) ∧
    (∀ fuel ref p sc, get_graph_entry_from_ref s ref = some p →
      decrament_count fuel s (some p) = .ok sc → P.RC_GROWTH_RT ≠ 0 →
      ∃ gc s1 w g1, sc.graph = some gc ∧ gc.size = g.size ∧
        rc_downgrade P fuel s ref = .ok (s1, w) ∧ s1.graph = some g1 ∧
        g1.size = (if gc.n_allocations < g.size / P.RC_GROWTH_RT
          then g.size / P.RC_GROWTH_RT else g.size)) ∧
    (∀ w s1 r, rc_upgrade s w = .ok (s1, r) → s1.graph = s.graph) ∧
    (∀ sr_addr ptr_addr ptr n dep s1 r, ptr ≠ 0 →
      rc_alloc P s sr_addr ptr_addr ptr n dep = .ok (s1, r) → s1.graph = s.graph) ∧
    (∀ fuel ref, get_graph_entry_from_ref s ref = none →
      rc_downgrade P fuel s ref = .ok (s, { entry_id := INVALID_ID })) := by
  refine ⟨?_, ?_, ?_, ?_, ?_, ?_⟩
  · intro sr_addr ptr_addr n dep s1 i h
    obtain ⟨g1, hg1, hsz, _⟩ := new_graph_entry_graph P s s1 sr_addr ptr_addr n dep i h
    exact ⟨g1, hg1, by rw [hsz, hg]; rfl⟩
  · intro hcap hpos hrt hmul sr_addr ptr_addr n
    have hnew := new_graph_entry_eq P s sr_addr ptr_addr n 0 g hg hcap hpos hrt hmul
    rw [allocate_no_dep] at hnew
    exact ⟨_, _, hnew⟩
  · intro fuel ref p sc hp hsc hrt
    obtain ⟨g0, gc, s1, w, hg0, hgc, hsz, hret, hs1⟩ :=
      rc_downgrade_returns P fuel s sc ref p hp hsc hrt
    have hgg : g = g0 := by rw [hg, hg0]; rfl
    subst hgg
    refine ⟨gc, s1, w, shrunk P gc, hgc, hsz, hret, hs1, ?_⟩
    rw [(shrunk_graph P gc).1, hsz]
    rfl
  · exact fun w s1 r h => rc_upgrade_graph s s1 w r h
  · exact fun sr_addr ptr_addr ptr n dep s1 r hptr h =>
      rc_alloc_reacquire_graph P s s1 sr_addr ptr_addr ptr n dep r hptr h
  · exact fun fuel ref h => rc_downgrade_not_found P fuel s ref h

theorem load_release_ne (s : Mem) (a b : Nat) (h : b ≠ a) :
    load (release s a) b = load s b := by
  unfold load release
  simp [h]

theorem cleanup_loop_ok (l : List GraphEntry) (s : Mem)
    (hnodup : (l.map (fun e => e.ref)).Nodup)
    (hlive : ∀ e ∈ l, ∃ r, load s e.ref = .ok r) :
    ∃ s1, cleanup_loop s l = .ok s1 ∧ s1.graph = s.graph ∧
      (∀ e ∈ l, s1.heap e.ref = none) ∧
      (∀ a, (∀ e ∈ l, e.ref ≠ a) → s1.heap a = s.heap a) := by
  induction l generalizing s with
  | nil => exact ⟨s, rfl, rfl, by simp, fun a _ => rfl⟩
  | cons x l ih =>
    obtain ⟨r, hr⟩ := hlive x (List.mem_cons_self x l)
    have hnd : (∀ e ∈ l, ¬ e.ref = x.ref) ∧ (l.map (fun e => e.ref)).Nodup := by
      simpa using hnodup
    have hx : ∀ e ∈ l, e.ref ≠ x.ref := hnd.1
    obtain ⟨s1, hs1, hg1, hfreed, hkept⟩ := ih (release s x.ref) hnd.2 (by
      intro e he
      obtain ⟨q, hq⟩ := hlive e (List.mem_cons_of_mem x he)
      exact ⟨q, by rw [load_release_ne s x.ref e.ref (hx e he)]; exact hq⟩)
    refine ⟨s1, ?_, ?_, ?_, ?_⟩
    · simp only [cleanup_loop, hr]
      exact hs1
    · rw [hg1]; rfl
    · intro e he
      rcases List.mem_cons.1 he with h | h
      · subst h
        by_cases hin : ∃ e' ∈ l, e'.ref = e.ref
        · obtain ⟨e', he', heq⟩ := hin
          rw [← heq]
          exact hfreed e' he'
        · rw [hkept e.ref (fun e' he' heq => hin ⟨e', he', heq⟩)]
          simp [release]
      · exact hfreed e h
    · intro a ha
      rw [hkept a (fun e he => ha e (List.mem_cons_of_mem x he))]
      have : a ≠ x.ref := fun h => ha x (List.mem_cons_self x l) h.symm
      simp [release, this]

/-- Cleanup of a consistent store: `rc_cleanup` on a state whose stored strong references are live and pairwise
distinct (and on the uninitialised state) returns; afterwards the graph is uninitialised,
every stored strong reference has been freed, `rc_upgrade` returns `NULL` for every weak
reference and `rc_downgrade` returns the invalid sentinel for every strong reference, both
leaving the state as it is.  A following `init_reference_graph` yields a graph with
`n_allocations == 0`, `size == RC_INIT_SZ` and `next_entry_id == 0`; a following
`rc_alloc(NULL, n, NULL)` (with `RC_INIT_SZ >= 1`) initialises implicitly and returns the
only entry of a store of capacity `RC_INIT_SZ`, with id 0. -/
theorem rc_cleanup_uninitializes (P : Params) (s : Mem)
    (hlive : ∀ g, s.graph = some g →
      (g.entries.map (fun e => e.ref)).Nodup ∧ ∀ e ∈ g.entries, ∃ r, load s e.ref = .ok r) :
    ∃ s1, rc_cleanup s = .ok s1 ∧ s1.graph = none ∧
      (∀ g, s.graph = some g → ∀ e ∈ g.entries, s1.heap e.ref = none) ∧
      (∀ w, rc_upgrade s1 w = .ok (s1, 0)) ∧
      (∀ fuel ref, rc_downgrade P fuel s1 ref = .ok (s1, { entry_id := INVALID_ID })) ∧
      (init_reference_graph P s1).graph =
        some { allocations := [], n_allocations := 0, size := P.RC_INIT_SZ,
               next_entry_id := 0 } ∧
      (1 ≤ P.RC_INIT_SZ → ∀ sr_addr ptr_addr n, ∃ s2 g2,
        rc_alloc P s1 sr_addr ptr_addr 0 n 0 = .ok (s2, sr_addr) ∧ s2.graph = some g2 ∧
        g2.entries = [{ entry_id := 0, ref := sr_addr }] ∧ g2.n_allocations = 1 ∧
        g2.size = P.RC_INIT_SZ ∧ g2.next_entry_id = 1) := by
  have hafter : ∀ s1 : Mem, s1.graph = none →
      (∀ w, rc_upgrade s1 w = .ok (s1, 0)) ∧
      (∀ fuel ref, rc_downgrade P fuel s1 ref = .ok (s1, { entry_id := INVALID_ID })) ∧
      (init_reference_graph P s1).graph =
        some { allocations := [], n_allocations := 0, size := P.RC_INIT_SZ,
               next_entry_id := 0 } ∧
      (1 ≤ P.RC_INIT_SZ → ∀ sr_addr ptr_addr n, ∃ s2 g2,
        rc_alloc P s1 sr_addr ptr_addr 0 n 0 = .ok (s2, sr_addr) ∧ s2.graph = some g2 ∧
        g2.entries = [{ entry_id := 0, ref := sr_addr }] ∧ g2.n_allocations = 1 ∧
        g2.size = P.RC_INIT_SZ ∧ g2.next_entry_id = 1) := by
    intro s1 h1
    refine ⟨?_, ?_, rfl, ?_⟩
    · intro w
      simp [rc_upgrade, h1]
    · intro fuel ref
      simp [rc_downgrade, h1]
    · intro hinit sr_addr ptr_addr n
      have hne : P.RC_INIT_SZ ≠ 0 := by omega
      have hnew := new_graph_entry_general P s1 sr_addr ptr_addr n 0
      rw [allocate_no_dep] at hnew
      simp only [h1, Option.getD_none, size_after_growth, empty_graph, hne, if_false,
        Nat.not_le.mpr (Nat.lt_of_lt_of_le Nat.zero_lt_one hinit)] at hnew
      have hw : write_slot [] 0 ({ entry_id := 0, ref := sr_addr } : GraphEntry) =
          [{ entry_id := 0, ref := sr_addr }] := rfl
      have hm : (0 + 1) % SIZE_MOD = 1 := by decide
      simp only [hw, hm] at hnew
      refine ⟨{ graph := some ⟨[⟨0, sr_addr⟩], 1, P.RC_INIT_SZ, 1⟩,
                heap := (store { graph := some ⟨write_slot [] 0 ⟨0, stale_ref ⟨[], 0,
                  P.RC_INIT_SZ, 0⟩⟩, 1, P.RC_INIT_SZ, 1⟩, heap := s1.heap } sr_addr
                  { ptr := ptr_addr, count := 1, dep_list := [] }).heap },
        ⟨[⟨0, sr_addr⟩], 1, P.RC_INIT_SZ, 1⟩, ?_, rfl, rfl, rfl, rfl, rfl⟩
      unfold rc_alloc
      simp only [if_true, hnew]
      rfl
  cases hg : s.graph with
  | none =>
    have hc : rc_cleanup s = .ok s := by simp [rc_cleanup, hg]
    exact ⟨s, hc, hg, by intro g h; exact Option.noConfusion h, hafter s hg⟩
  | some g =>
    obtain ⟨hnodup, hl⟩ := hlive g hg
    obtain ⟨s1, hs1, _, hfreed, _⟩ := cleanup_loop_ok g.entries s hnodup hl
    have hc : rc_cleanup s = .ok { s1 with graph := none } := by
      simp [rc_cleanup, hg, hs1]
    refine ⟨{ s1 with graph := none }, hc, rfl, ?_, hafter _ rfl⟩
    intro g' hg' e he
    injection hg' with hg'
    subst hg'
    exact hfreed e he

theorem self_dependency_loops (s : Mem) (g : ReferenceGraph) (e : GraphEntry) (r : StrongRef)
    (hg : s.graph = some g) (he : g.allocations[0]? = some e) (hn : 0 < g.n_allocations)
    (hr : load s e.ref = .ok r) (hdep : r.dep_list[0]? = some e.entry_id) (fuel : Nat) :
    decrament_count fuel s (some 0) = .error .fuel ∧
    decrament_outer fuel s 0 0 = .error .fuel ∧
    decrament_inner fuel s 0 0 0 = .error .fuel := by
  have hslot : slot s 0 = .ok e := by simp [slot, hg, he]
  have href : e.ref ≠ 0 := (load_ok_ne_zero s e.ref r hr).1
  induction fuel with
  | zero =>
    refine ⟨?_, ?_, ?_⟩
    · simp [decrament_count]
    · simp [decrament_outer]
    · simp [decrament_inner]
  | succ fuel ih =>
    obtain ⟨ihc, iho, ihi⟩ := ih
    refine ⟨?_, ?_, ?_⟩
    · unfold decrament_count
      simp only [hslot, href, if_false, iho]
    · unfold decrament_outer
      simp only [hg, hn, if_true, ihi]
    · unfold decrament_inner
      simp only [hslot, hr, hdep, if_true, ihc]

/-- C19 (the code fails): from a fresh graph, `a = rc_alloc(NULL, 8, NULL)`,
`rc_downgrade(a)` (which frees `a`), then `b = rc_alloc(NULL, 8, a)` where the allocator
hands out the address of `a` again.  `new_graph_entry` has claimed slot 0, which still
holds the old `ref`, before `allocate` scans the store for `dep`; the scan finds the new
slot itself, so `b` gets the dependency list `[1]` with its own `entry_id == 1`.  The
recursion of `decrament_count` on `b` then never ends: `rc_downgrade(b)` exhausts every
fuel. -/
theorem self_dependency_never_terminates :
    ∃ s, run ⟨16, 2⟩ 10 (init_reference_graph ⟨16, 2⟩ Mem.start)
        [.alloc 100 101 0 8 0, .downgrade 100, .alloc 100 201 0 8 100] = .ok s ∧
      view s = some (⟨[⟨1, 100⟩], 1, 8, 2⟩, [some ⟨201, 1, [1]⟩]) ∧
      ∀ fuel, rc_downgrade ⟨16, 2⟩ fuel s 100 = .error .fuel := by
  have hv : view_after ⟨16, 2⟩ 10
      [.alloc 100 101 0 8 0, .downgrade 100, .alloc 100 201 0 8 100] =
      .ok (some (⟨[⟨1, 100⟩], 1, 8, 2⟩, [some ⟨201, 1, [1]⟩])) := by decide!
  unfold view_after at hv
  cases hrun : run ⟨16, 2⟩ 10 (init_reference_graph ⟨16, 2⟩ Mem.start)
      [.alloc 100 101 0 8 0, .downgrade 100, .alloc 100 201 0 8 100] with
  | error f => simp [hrun] at hv
  | ok s =>
    simp only [hrun] at hv
    injection hv with hv
    refine ⟨s, rfl, hv, ?_⟩
    unfold view at hv
    cases hg : s.graph with
    | none => simp [hg] at hv
    | some g =>
      simp only [hg] at hv
      injection hv with hv
      injection hv with hg1 hh
      subst hg1
      have hheap : s.heap 100 = some ⟨201, 1, [1]⟩ := by
        simpa [ReferenceGraph.entries] using hh
      have hload : load s 100 = .ok ⟨201, 1, [1]⟩ := load_of_heap s 100 _ (by decide) hheap
      have hfound : get_graph_entry_from_ref s 100 = some 0 := by
        simp [get_graph_entry_from_ref, hg, ReferenceGraph.entries, first_index]
      intro fuel
      rw [rc_downgrade_found _ fuel s 100 0 hfound]
      rw [(self_dependency_loops s _ ⟨1, 100⟩ ⟨201, 1, [1]⟩ hg rfl (by decide) hload rfl fuel).1]

/-- C11 (the code fails): from a fresh graph, after `a = rc_alloc`, `rc_downgrade(a)`,
`b = rc_alloc` (id 1), `c = rc_alloc` (id 2) and `rc_downgrade(b)`, the store holds the
entry with id 1 whose count is 0, while the entry with id 2, whose count never left 1, is
no longer in the store and its strong reference (at 300) has been freed. -/
theorem zero_count_entry_in_store :
    view_after ⟨16, 2⟩ 10
        [.alloc 100 101 0 8 0, .downgrade 100, .alloc 200 201 0 8 0, .alloc 300 301 0 8 0,
          .downgrade 200] =
      .ok (some (⟨[⟨1, 200⟩, ⟨2, 300⟩], 1, 4, 3⟩, [some ⟨201, 0, []⟩])) ∧
    objects_after ⟨16, 2⟩ 10
        [.alloc 100 101 0 8 0, .downgrade 100, .alloc 200 201 0 8 0, .alloc 300 301 0 8 0,
          .downgrade 200] [200, 300] =
      .ok [some ⟨201, 0, []⟩, none] := by
  decide!

/-- C12 (the code fails): `init_reference_graph` on the state `two_entries`, whose graph
holds two entries, replaces the graph by an empty one (`n_allocations == 0`,
`size == RC_INIT_SZ`, `next_entry_id == 0`); the source comment says that nothing is done
when the graph has allocations. -/
theorem init_resets_graph (P : Params) :
    view two_entries =
      some (⟨[⟨0, 100⟩, ⟨1, 200⟩], 2, 16, 2⟩, [some ⟨101, 1, []⟩, some ⟨201, 2, []⟩]) ∧
    view (init_reference_graph P two_entries) = some (⟨[], 0, P.RC_INIT_SZ, 0⟩, []) := by
  constructor
  · decide
  · simp [view, init_reference_graph, empty_graph, ReferenceGraph.entries]

/-- C14 (the code fails): from a fresh graph, after `a = rc_alloc`, `rc_downgrade(a)`,
`e = rc_alloc` (id 1), `d = rc_alloc(NULL, 8, e)` (id 2, depends on 1) and `f = rc_alloc`
(id 3, no dependency), all three with count 1, `rc_downgrade(e)` leaves a store that holds
only the entry of `e`, with count 0; the strong references of `d` (at 300) and of `f` (at
400) have been freed, although `f` does not depend on `e`. -/
theorem cascade_frees_unrelated_entry :
    view_after ⟨16, 2⟩ 20
        [.alloc 100 101 0 8 0, .downgrade 100, .alloc 200 201 0 8 0, .alloc 300 301 0 8 200,
          .alloc 400 401 0 8 0] =
      .ok (some (⟨[⟨1, 200⟩, ⟨2, 300⟩, ⟨3, 400⟩], 3, 8, 4⟩,
        [some ⟨201, 1, []⟩, some ⟨301, 1, [1]⟩, some ⟨401, 1, []⟩])) ∧
    view_after ⟨16, 2⟩ 20
        [.alloc 100 101 0 8 0, .downgrade 100, .alloc 200 201 0 8 0, .alloc 300 301 0 8 200,
          .alloc 400 401 0 8 0, .downgrade 200] =
      .ok (some (⟨[⟨1, 200⟩, ⟨2, 300⟩, ⟨3, 400⟩], 1, 4, 4⟩, [some ⟨201, 0, []⟩])) ∧
    objects_after ⟨16, 2⟩ 20
        [.alloc 100 101 0 8 0, .downgrade 100, .alloc 200 201 0 8 0, .alloc 300 301 0 8 200,
          .alloc 400 401 0 8 0, .downgrade 200] [300, 400] =
      .ok [none, none] := by
  decide!

/-- C15 (the code fails): from a fresh graph, after `a = rc_alloc`, `rc_downgrade(a)`,
`b = rc_alloc` (id 1, position 0) and `c = rc_alloc` (id 2, position 1), both with count 1
and no dependents, `rc_downgrade(b)` returns the valid weak reference 1 and leaves a store
whose only entry is still the one of `b` (id 1, count 0): the entry of `c` was removed. -/
theorem downgrade_removes_other_entry :
    view_after ⟨16, 2⟩ 10
        [.alloc 100 101 0 8 0, .downgrade 100, .alloc 200 201 0 8 0, .alloc 300 301 0 8 0] =
      .ok (some (⟨[⟨1, 200⟩, ⟨2, 300⟩], 2, 8, 3⟩,
        [some ⟨201, 1, []⟩, some ⟨301, 1, []⟩])) ∧
    downgrade_after ⟨16, 2⟩ 10
        [.alloc 100 101 0 8 0, .downgrade 100, .alloc 200 201 0 8 0, .alloc 300 301 0 8 0]
        200 =
      .ok (⟨1⟩, some (⟨[⟨1, 200⟩, ⟨2, 300⟩], 1, 4, 3⟩, [some ⟨201, 0, []⟩])) := by
  decide!

/-- C16 (the code fails): with `e` (id 1, position 0), its only dependent
`d = rc_alloc(NULL, 8, e)` (id 2) and an unrelated `f` (id 3), all with count 1, the first
`rc_downgrade(e)` brings the count of `e` to 0 but returns the valid weak reference 1 and
keeps `e` in the store; a second `rc_downgrade(e)` wraps its count to `2^64 - 1`: `e` is
not removed.  On a fresh graph with only `e` and `d`, `rc_downgrade(e)` removes `d` and
then reads the freed strong reference of `d` in the loop test: undefined behaviour. -/
theorem dependency_target_never_removed :
    downgrade_after ⟨16, 2⟩ 20
        [.alloc 100 101 0 8 0, .downgrade 100, .alloc 200 201 0 8 0, .alloc 300 301 0 8 200,
          .alloc 400 401 0 8 0] 200 =
      .ok (⟨1⟩, some (⟨[⟨1, 200⟩, ⟨2, 300⟩, ⟨3, 400⟩], 1, 4, 4⟩, [some ⟨201, 0, []⟩])) ∧
    downgrade_after ⟨16, 2⟩ 20
        [.alloc 100 101 0 8 0, .downgrade 100, .alloc 200 201 0 8 0, .alloc 300 301 0 8 200,
          .alloc 400 401 0 8 0, .downgrade 200] 200 =
      .ok (⟨1⟩, some (⟨[⟨1, 200⟩, ⟨2, 300⟩], 1, 2, 4⟩,
        [some ⟨201, 18446744073709551615, []⟩])) ∧
    downgrade_after ⟨16, 2⟩ 20 [.alloc 100 101 0 8 0, .alloc 200 201 0 8 100] 100 =
      .error .undefined :=
  ⟨by decide!, by decide!, by decide!⟩

/-- C20 (the code fails): `delete_entry(0)` on the state `two_entries` (entries with ids 0
and 1, strong references 100 and 200) leaves one entry, but it is not the entry formerly
at position 1: `memmove` moved `n_allocations - index - 1 = 1` byte, so position 0 holds
`entry_id == 1` with the freed strong reference 100 instead of 200. -/
theorem delete_entry_moves_bytes :
    view_delete two_entries 0 =
      .ok (some (⟨[⟨1, 100⟩, ⟨1, 200⟩], 1, 16, 2⟩, [none])) := by
  decide!

theorem two_entries_live :
    ∀ g, two_entries.graph = some g →
      (g.entries.map (fun e => e.ref)).Nodup ∧
        ∀ e ∈ g.entries, ∃ r, load two_entries e.ref = .ok r := by
  intro g hg
  have hgg : g = ⟨[⟨0, 100⟩, ⟨1, 200⟩], 2, 16, 2⟩ := (Option.some.inj hg).symm
  subst hgg
  refine ⟨by decide, ?_⟩
  intro e he
  have hmem : e = ⟨0, 100⟩ ∨ e = ⟨1, 200⟩ := by
    simpa [ReferenceGraph.entries] using he
  rcases hmem with h | h
  · subst h
    exact ⟨⟨101, 1, []⟩, by decide⟩
  · subst h
    exact ⟨⟨201, 2, []⟩, by decide⟩

/-- Witness of `rc_cleanup_uninitializes`: cleanup of the state `two_entries`. -/
theorem rc_cleanup_uninitializes_witness :
    (∀ g, two_entries.graph = some g →
      (g.entries.map (fun e => e.ref)).Nodup ∧
        ∀ e ∈ g.entries, ∃ r, load two_entries e.ref = .ok r) ∧
    ∃ s1, rc_cleanup two_entries = .ok s1 ∧ s1.graph = none ∧
      (∀ g, two_entries.graph = some g → ∀ e ∈ g.entries, s1.heap e.ref = none) ∧
      (∀ w, rc_upgrade s1 w = .ok (s1, 0)) ∧
      (∀ fuel ref, rc_downgrade ⟨16, 2⟩ fuel s1 ref = .ok (s1, { entry_id := INVALID_ID })) ∧
      (init_reference_graph ⟨16, 2⟩ s1).graph =
        some { allocations := [], n_allocations := 0, size := 16, next_entry_id := 0 } ∧
      (1 ≤ 16 → ∀ sr_addr ptr_addr n, ∃ s2 g2,
        rc_alloc ⟨16, 2⟩ s1 sr_addr ptr_addr 0 n 0 = .ok (s2, sr_addr) ∧ s2.graph = some g2 ∧
        g2.entries = [{ entry_id := 0, ref := sr_addr }] ∧ g2.n_allocations = 1 ∧
        g2.size = 16 ∧ g2.next_entry_id = 1) :=
  ⟨two_entries_live, rc_cleanup_uninitializes ⟨16, 2⟩ two_entries two_entries_live⟩

/-- Witness of `capacity_policy`: on the state `two_entries` (capacity 16, two entries)
`new_graph_entry` returns and keeps the capacity 16, and `rc_downgrade` of the first entry
(count 1, so it is removed and one entry is left) returns and halves the capacity to 8. -/
theorem capacity_policy_witness :
    ((⟨[⟨0, 100⟩, ⟨1, 200⟩], 2, 16, 2⟩ : ReferenceGraph) =
        two_entries.graph.getD (empty_graph ⟨16, 2⟩)) ∧
    (∃ s1 i g1, new_graph_entry ⟨16, 2⟩ two_entries 300 301 8 0 = .ok (s1, i) ∧
      s1.graph = some g1 ∧ g1.size = 16) ∧
    (∃ sc gc s1 w g1, decrament_count 10 two_entries (some 0) = .ok sc ∧
      sc.graph = some gc ∧ gc.size = 16 ∧ gc.n_allocations = 1 ∧
      rc_downgrade ⟨16, 2⟩ 10 two_entries 100 = .ok (s1, w) ∧ s1.graph = some g1 ∧
      g1.size = 8) := by
  obtain ⟨hnew, hret, hdown, _, _, _⟩ :=
    capacity_policy ⟨16, 2⟩ two_entries ⟨[⟨0, 100⟩, ⟨1, 200⟩], 2, 16, 2⟩ rfl
  refine ⟨rfl, ?_, ?_⟩
  · obtain ⟨s1, i, h⟩ := hret (by decide) (by decide) (by decide) (by decide) 300 301 8
    obtain ⟨g1, hg1, hsz⟩ := hnew 300 301 8 0 s1 i h
    exact ⟨s1, i, g1, h, hg1, by simpa using hsz⟩
  · have hv : Except.map view (decrament_count 10 two_entries (some 0)) =
        .ok (some (⟨[⟨1, 100⟩, ⟨1, 200⟩], 1, 16, 2⟩, [none])) := by decide!
    cases hsc : decrament_count 10 two_entries (some 0) with
    | error f => simp [hsc, Except.map] at hv
    | ok sc =>
      simp only [hsc, Except.map] at hv
      injection hv with hv
      have hfound : get_graph_entry_from_ref two_entries 100 = some 0 := by decide
      obtain ⟨gc, s1, w, g1, hgc, hgsz, hrd, hg1, hsz⟩ :=
        hdown 10 100 0 sc hfound hsc (by decide)
      have hn : gc.n_allocations = 1 := by
        unfold view at hv
        simp only [hgc] at hv
        injection hv with hv
        injection hv with h1 h2
        rw [h1]
      refine ⟨sc, gc, s1, w, g1, rfl, hgc, hgsz, hn, hrd, hg1, ?_⟩
      rw [hsz, hn]
      decide

theorem le_bytes_length (w v : Nat) : (le_bytes w v).length = w := by
  induction w generalizing v with
  | zero => rfl
  | succ w ih => simp [le_bytes, ih]

theorem le_value_le_bytes (w v : Nat) : le_value (le_bytes w v) = v % 256 ^ w := by
  induction w generalizing v with
  | zero => simp [le_bytes, le_value, Nat.mod_one]
  | succ w ih =>
    simp only [le_bytes, le_value, ih]
    rw [Nat.pow_succ, Nat.mul_comm (256 ^ w) 256, Nat.mod_mul]

theorem block_slots_block_bytes (l : List GraphEntry)
    (h : ∀ e ∈ l, e.entry_id < SIZE_MOD ∧ e.ref < SIZE_MOD) :
    block_slots l.length (block_bytes l) = l := by
  induction l with
  | nil => rfl
  | cons e es ih =>
    obtain ⟨h1, h2⟩ := h e (List.mem_cons_self e es)
    have hp : (256 : Nat) ^ 8 = SIZE_MOD := by decide
    have ha : (le_bytes 8 e.entry_id ++ le_bytes 8 e.ref ++ block_bytes es).take 8 =
        le_bytes 8 e.entry_id := by
      rw [List.append_assoc, List.take_left' (le_bytes_length 8 _)]
    have hb : ((le_bytes 8 e.entry_id ++ le_bytes 8 e.ref ++ block_bytes es).drop 8).take 8 =
        le_bytes 8 e.ref := by
      rw [List.append_assoc, List.drop_left' (le_bytes_length 8 _),
        List.take_left' (le_bytes_length 8 _)]
    have hc : (le_bytes 8 e.entry_id ++ le_bytes 8 e.ref ++ block_bytes es).drop 16 =
        block_bytes es := by
      rw [List.drop_left' (by simp [le_bytes_length])]
    simp only [List.length_cons, block_bytes, block_slots, ha, hb, hc, le_value_le_bytes, hp,
      Nat.mod_eq_of_lt h1, Nat.mod_eq_of_lt h2]
    rw [ih (fun a ha => h a (List.mem_cons_of_mem e ha))]

/-- Removal of the entry in the last position: `memmove` has nothing to move and the
store is the previous one without its last entry. -/
theorem delete_entry_last (s : Mem) (g : ReferenceGraph) (index : Nat) (e : GraphEntry)
    (r : StrongRef) (hg : s.graph = some g) (hn : g.n_allocations = index + 1)
    (hsize : index < g.size) (he : g.allocations[index]? = some e)
    (hr : load s e.ref = .ok r)
    (hrep : ∀ a ∈ g.allocations, a.entry_id < SIZE_MOD ∧ a.ref < SIZE_MOD) :
    delete_entry s index =
      .ok { graph := some { g with n_allocations := index },
            heap := fun b => if b = e.ref then none else s.heap b } := by
  have hlen : index < g.allocations.length := by
    rcases Nat.lt_or_ge index g.allocations.length with h | h
    · exact h
    · rw [List.getElem?_eq_none_iff.2 h] at he
      exact Option.noConfusion he
  have hbl : ∀ l : List GraphEntry, (block_bytes l).length = 16 * l.length := by
    intro l
    induction l with
    | nil => rfl
    | cons a l ih => simp [block_bytes, le_bytes_length, ih]; omega
  have hmove : memmove (block_bytes g.allocations) (16 * index) (16 * (index + 1))
      (g.n_allocations - index - 1) = .ok (block_bytes g.allocations) := by
    have hk : g.n_allocations - index - 1 = 0 := by omega
    unfold memmove
    rw [hk]
    have h1 : 16 * (index + 1) + 0 ≤ (block_bytes g.allocations).length := by
      rw [hbl]; omega
    have h2 : 16 * index + 0 ≤ (block_bytes g.allocations).length := by
      rw [hbl]; omega
    simp only [Nat.add_zero] at h1 h2
    simp only [h1, h2, and_self, if_true, List.take_zero, List.append_nil, Nat.add_zero,
      List.take_append_drop]
  unfold delete_entry
  simp only [hg, Nat.not_le.mpr hsize, if_false, slot, he, hr,
    Nat.not_le.mpr (show index < g.n_allocations by omega), hmove]
  simp only [block_slots_block_bytes g.allocations hrep, release, hg, hn,
    Nat.add_sub_cancel]

/-- C3 (the code fails): from a fresh graph, after `a`, `b`, `c = rc_alloc(NULL, 8, NULL)`
(ids 0, 1, 2) and `rc_downgrade(a)`, the store holds `{entry_id 1, ref a}` with `a` freed
at position 0 and the entry of `b` (id 1, block 201, count 1) at position 1.  Re-acquiring
the block of `b`, `rc_alloc(201, 8, NULL)`, does not return `b` with its count raised:
`find_reference` dereferences the freed `a` in position 0 first, which is undefined. -/
theorem reacquire_reads_freed_entry :
    view_after ⟨16, 2⟩ 10
        [.alloc 100 101 0 8 0, .alloc 200 201 0 8 0, .alloc 300 301 0 8 0, .downgrade 100] =
      .ok (some (⟨[⟨1, 100⟩, ⟨1, 200⟩, ⟨2, 300⟩], 2, 8, 3⟩, [none, some ⟨201, 1, []⟩])) ∧
    alloc_after ⟨16, 2⟩ 10
        [.alloc 100 101 0 8 0, .alloc 200 201 0 8 0, .alloc 300 301 0 8 0, .downgrade 100]
        400 401 201 8 0 =
      .error .undefined :=
  ⟨by decide!, by decide!⟩

/-- C6 (the code fails): from a fresh graph, after `a`, `b`, `c = rc_alloc(NULL, 8, NULL)`
(ids 0, 1, 2), `rc_downgrade(a)` returns the weak reference 1 and leaves the store with
`{entry_id 1, ref a}`, `a` freed, at position 0 and the entry of `b` (id 1, count 1) at
position 1.  `rc_upgrade` of the weak reference 1, the id of `b`, does not return `b` with
its count raised: `get_graph_entry_by_id` stops at position 0 and the count of the freed
`a` is incremented, which is undefined. -/
theorem upgrade_reads_freed_entry :
    downgrade_after ⟨16, 2⟩ 10
        [.alloc 100 101 0 8 0, .alloc 200 201 0 8 0, .alloc 300 301 0 8 0] 100 =
      .ok (⟨1⟩, some (⟨[⟨1, 100⟩, ⟨1, 200⟩, ⟨2, 300⟩], 2, 8, 3⟩,
        [none, some ⟨201, 1, []⟩])) ∧
    upgrade_after ⟨16, 2⟩ 10
        [.alloc 100 101 0 8 0, .alloc 200 201 0 8 0, .alloc 300 301 0 8 0, .downgrade 100]
        ⟨1⟩ =
      .error .undefined :=
  ⟨by decide!, by decide!⟩

/-- C13 (the code fails): from a fresh graph, after `a`, `b`, `c = rc_alloc(NULL, 8, NULL)`
and `rc_downgrade(a)`, position 0 of the store still holds the strong reference `a`,
which was freed, and the entry of `c` is out of the store.  `rc_cleanup()` then reads and
frees `a` a second time, which is undefined, instead of leaving an uninitialised graph.
(After `a`, `b = rc_alloc` and `rc_downgrade(b)`, where the last entry is the one removed,
`rc_cleanup()` returns and the graph is `NULL`.) -/
theorem cleanup_frees_twice :
    objects_after ⟨16, 2⟩ 10
        [.alloc 100 101 0 8 0, .alloc 200 201 0 8 0, .alloc 300 301 0 8 0, .downgrade 100]
        [100, 200, 300] =
      .ok [none, some ⟨201, 1, []⟩, some ⟨301, 1, []⟩] ∧
    cleanup_after ⟨16, 2⟩ 10
        [.alloc 100 101 0 8 0, .alloc 200 201 0 8 0, .alloc 300 301 0 8 0, .downgrade 100] =
      .error .undefined ∧
    cleanup_after ⟨16, 2⟩ 10
        [.alloc 100 101 0 8 0, .alloc 200 201 0 8 0, .downgrade 200] =
      .ok none :=
  ⟨by decide!, by decide!, by decide!⟩

/-- C17 (the code fails): from a fresh graph with `RC_INIT_SZ = 16`, after `a`,
`b = rc_alloc(NULL, 8, NULL)` and `rc_downgrade(b)`, the store holds the entry of `a` and
`size` has been halved to 8.  A call of `init_reference_graph()` on this graph, an
operation other than an insertion or a downgrade, changes `size` to 16 (and empties the
store). -/
theorem init_changes_size :
    view_after ⟨16, 2⟩ 10 [.alloc 100 101 0 8 0, .alloc 200 201 0 8 0, .downgrade 200] =
      .ok (some (⟨[⟨0, 100⟩, ⟨1, 200⟩], 1, 8, 2⟩, [some ⟨101, 1, []⟩])) ∧
    init_after ⟨16, 2⟩ 10 [.alloc 100 101 0 8 0, .alloc 200 201 0 8 0, .downgrade 200] =
      .ok (some (⟨[], 0, 16, 0⟩, [])) :=
  ⟨by decide!, by decide!⟩

end RC
